import Mathlib

/-!
# Verification of the squidsoup-visualizer core simulation logic

Shallow embedding of the pattern-evaluation and audio-analysis pipeline.

Conventions of the embedding:
* JavaScript numbers are modelled as exact rationals (`ℚ`).
* Transcendental library calls (`Math.sin`, `Math.sqrt`, `Math.pow`, ...)
  are modelled by an explicit record of functions (`MathOps`) passed to
  each definition; theorems either hold for every such record or assume
  the obvious bounds (for instance `|sin x| ≤ 1`).
* `Math.random()` is modelled by an explicit stream `rng : ℕ → ℚ` consumed
  positionally, one index per call site occurrence.
* The JavaScript remainder operator `%` (sign of the dividend, truncated
  quotient) is modelled by `jsRem`; `Math.floor` by `Int.floor`.
* Module-level mutable state of the stateful generators is threaded as an
  explicit state value.
-/

/-- Truncation toward zero, as JavaScript `Math.trunc` / the quotient
implicit in the `%` operator. -/
def jsTrunc (q : ℚ) : ℤ :=
  if 0 ≤ q then ⌊q⌋ else ⌈q⌉

/-- The JavaScript remainder operator `a % b`: same sign as the dividend,
`a - b * trunc (a / b)`. -/
def jsRem (a b : ℚ) : ℚ :=
  a - b * jsTrunc (a / b)

/-- JavaScript `x || d` on an optional numeric field: the default is used
when the field is absent or equal to `0` (falsy). -/
def jsOr (v : Option ℚ) (d : ℚ) : ℚ :=
  match v with
  | none => d
  | some x => if x = 0 then d else x

/-- Record of the transcendental operations used by the generators
(`Math.sin`, `Math.cos`, `Math.sqrt`, `Math.exp`, `Math.acos`,
`Math.pow`, `Math.PI`). The embedding is parametric in this record. -/
structure MathOps where
  sin : ℚ → ℚ
  cos : ℚ → ℚ
  sqrt : ℚ → ℚ
  exp : ℚ → ℚ
  acos : ℚ → ℚ
  pow : ℚ → ℚ → ℚ
  pi : ℚ

/-- 3D vector (mirrors `THREE.Vector3` as used by the core math). -/
structure Vec3 where
  x : ℚ
  y : ℚ
  z : ℚ
deriving DecidableEq

/-- `AudioAnalysis` snapshot (src/patterns/types). -/
structure AudioAnalysis where
  bass : ℚ
  mid : ℚ
  treble : ℚ
  amplitude : ℚ
  beat : Bool
  bpm : ℚ
  frequencyData : List ℕ
  timestamp : ℚ
deriving DecidableEq

/-- The closed set of pattern kinds (src/patterns/types `PatternType`). -/
inductive PatternType where
  | wave | firework | rain | pulse | blob | custom
  | audioSpectrum | verticalWave | starfield | tetris | saturn
deriving DecidableEq

/-- Generator parameters (`parameters` field of `PatternConfig`);
`frequency`, `decay`, `spread` are optional in the source. -/
structure PatternParameters where
  speed : ℚ
  scale : ℚ
  intensity : ℚ
  direction : Vec3
  origin : Vec3
  frequency : Option ℚ
  decay : Option ℚ
  spread : Option ℚ
deriving DecidableEq

/-- `PatternConfig` (src/patterns/types); UI metadata fields that the
core math never reads are omitted. -/
structure PatternConfig where
  id : String
  type : PatternType
  name : String
  enabled : Bool
  audioReactive : Bool
  parameters : PatternParameters
deriving DecidableEq

/-- Result record `{ intensity, colorShift }` returned by every generator
and by the evaluator. -/
structure EvalResult where
  intensity : ℚ
  colorShift : ℚ
deriving DecidableEq

/-- Type of a pattern generator for one frame, with any internal state
frozen (src/patterns/generators `PatternFunction`). -/
def PatternFn : Type :=
  Vec3 → ℚ → PatternConfig → AudioAnalysis → EvalResult

/-- The fixed neutral audio snapshot substituted for non-audio-reactive
patterns (src/patterns/generators evaluator module, `neutralAudio`). -/
def neutralAudio : AudioAnalysis :=
  ⟨1/2, 1/2, 1/2, 1/2, false, 120, [], 0⟩

/-- One accumulation step of the evaluator loop body: adds the generator's
intensity to the running total, `colorShift * intensity` to the color
accumulator and `intensity` to the weight sum. -/
def evalStep (table : PatternType → PatternFn) (position : Vec3) (time : ℚ)
    (audio : AudioAnalysis) (acc : ℚ × ℚ × ℚ) (pattern : PatternConfig) :
    ℚ × ℚ × ℚ :=
  let fn := table pattern.type
  let audioToUse := if pattern.audioReactive then audio else neutralAudio
  let result := fn position time pattern audioToUse
  (acc.1 + result.intensity,
   acc.2.1 + result.colorShift * result.intensity,
   acc.2.2 + result.intensity)

/-- `evaluatePatterns` (src/patterns/generators evaluator module):
runs every active pattern's generator, substituting the neutral snapshot
for non-audio-reactive configs, then combines: intensity saturating at 1,
colorShift the intensity-weighted average (0 when the weight sum is not
positive). The generator dispatch table is a parameter; in the source it
is the fixed `patternFunctions` record lookup. -/
def evaluatePatterns (table : PatternType → PatternFn) (position : Vec3)
    (time : ℚ) (patterns : List PatternConfig) (audio : AudioAnalysis) :
    EvalResult :=
  let acc := patterns.foldl (evalStep table position time audio) (0, 0, 0)
  ⟨min 1 acc.1, if acc.2.2 > 0 then acc.2.1 / acc.2.2 else 0⟩

/-- Per-pattern generator output as seen by the evaluator (the generator
applied to the live audio or, for non-reactive configs, the neutral
snapshot). -/
def evalOut (table : PatternType → PatternFn) (position : Vec3) (time : ℚ)
    (audio : AudioAnalysis) (p : PatternConfig) : EvalResult :=
  table p.type position time p (if p.audioReactive then audio else neutralAudio)

/-- Closed form of the evaluator's accumulation loop. -/
lemma evalFold (table : PatternType → PatternFn) (position : Vec3) (time : ℚ)
    (audio : AudioAnalysis) (patterns : List PatternConfig) (a b c : ℚ) :
    patterns.foldl (evalStep table position time audio) (a, b, c) =
      (a + (patterns.map fun p => (evalOut table position time audio p).intensity).sum,
       b + (patterns.map fun p =>
         (evalOut table position time audio p).colorShift *
           (evalOut table position time audio p).intensity).sum,
       c + (patterns.map fun p => (evalOut table position time audio p).intensity).sum) := by
  induction patterns generalizing a b c with
  | nil => simp
  | cons q qs ih =>
    simp only [List.foldl_cons, List.map_cons, List.sum_cons, ih]
    simp only [evalStep, evalOut]
    refine Prod.ext ?_ (Prod.ext ?_ ?_) <;> dsimp <;> ring

/-- Claim C1: for every point, time, active pattern list and audio
snapshot, `evaluatePatterns` returns intensity `min 1 (Σ intensities)`;
when every generator intensity is nonnegative its colorShift is the
intensity-weighted average `Σ(colorShift·intensity) / Σ(intensity)`,
defaulting to `0` on zero total weight; and when every generator
intensity lies in `[0,1]` the combined intensity lies in `[0,1]`. -/
theorem evaluatePatterns_spec (table : PatternType → PatternFn)
    (position : Vec3) (time : ℚ) (patterns : List PatternConfig)
    (audio : AudioAnalysis) :
    (evaluatePatterns table position time patterns audio).intensity =
      min 1 (patterns.map fun p => (evalOut table position time audio p).intensity).sum
    ∧ ((∀ p ∈ patterns, 0 ≤ (evalOut table position time audio p).intensity) →
        (evaluatePatterns table position time patterns audio).colorShift =
          (if (patterns.map fun p => (evalOut table position time audio p).intensity).sum = 0
            then 0
            else (patterns.map fun p =>
                (evalOut table position time audio p).colorShift *
                  (evalOut table position time audio p).intensity).sum /
              (patterns.map fun p => (evalOut table position time audio p).intensity).sum))
    ∧ ((∀ p ∈ patterns, 0 ≤ (evalOut table position time audio p).intensity ∧
          (evalOut table position time audio p).intensity ≤ 1) →
        0 ≤ (evaluatePatterns table position time patterns audio).intensity ∧
          (evaluatePatterns table position time patterns audio).intensity ≤ 1) := by
  have hfold := evalFold table position time audio patterns 0 0 0
  have hres : evaluatePatterns table position time patterns audio =
      ⟨min 1 (patterns.map fun p => (evalOut table position time audio p).intensity).sum,
        if (patterns.map fun p => (evalOut table position time audio p).intensity).sum > 0
          then (patterns.map fun p =>
              (evalOut table position time audio p).colorShift *
                (evalOut table position time audio p).intensity).sum /
            (patterns.map fun p => (evalOut table position time audio p).intensity).sum
          else 0⟩ := by
    simp only [evaluatePatterns]
    rw [hfold]
    simp only [zero_add]
  constructor
  · rw [hres]
  constructor
  · intro hnn
    have hS : 0 ≤ (patterns.map fun p => (evalOut table position time audio p).intensity).sum := by
      apply List.sum_nonneg
      intro x hx
      rcases List.mem_map.mp hx with ⟨p, hp, rfl⟩
      exact hnn p hp
    rw [hres]
    dsimp only
    rcases lt_or_eq_of_le hS with hpos | hzero
    · rw [if_pos hpos, if_neg (ne_of_gt hpos)]
    · rw [if_neg (by rw [← hzero]; exact lt_irrefl 0), if_pos hzero.symm]
  · intro hb
    have hS : 0 ≤ (patterns.map fun p => (evalOut table position time audio p).intensity).sum := by
      apply List.sum_nonneg
      intro x hx
      rcases List.mem_map.mp hx with ⟨p, hp, rfl⟩
      exact (hb p hp).1
    rw [hres]
    exact ⟨le_min (by norm_num) hS, min_le_left _ _⟩

/-- Constant generator table used to instantiate the evaluator theorems
on concrete inputs. -/
def tableConst : PatternType → PatternFn :=
  fun _ => fun _ _ _ _ => ⟨1, 0⟩

/-- A concrete pattern configuration (audio-reactive). -/
def cfgReactive : PatternConfig :=
  ⟨"p1", PatternType.wave, "Expanding Sphere", true, true,
    ⟨1, 1, 1, ⟨0, 1, 0⟩, ⟨0, 0, 0⟩, none, none, none⟩⟩

/-- A concrete pattern configuration with `audioReactive = false`. -/
def cfgNonReactive : PatternConfig :=
  ⟨"p2", PatternType.starfield, "Starfield", true, false,
    ⟨1, 1, 1, ⟨0, 1, 0⟩, ⟨0, 0, 0⟩, none, none, none⟩⟩

/-- A concrete "loud" audio snapshot. -/
def loudAudio : AudioAnalysis :=
  ⟨1, 1, 1, 1, true, 140, [], 1000⟩

/-- A concrete "silent" audio snapshot. -/
def silentAudio : AudioAnalysis :=
  ⟨0, 0, 0, 0, false, 0, [], 1000⟩

/-- Witness for C1 at a concrete input. -/
theorem evaluatePatterns_spec_witness :
    0 ≤ (evaluatePatterns tableConst ⟨0, 0, 0⟩ 0 [cfgReactive] loudAudio).intensity ∧
      (evaluatePatterns tableConst ⟨0, 0, 0⟩ 0 [cfgReactive] loudAudio).intensity ≤ 1 :=
  (evaluatePatterns_spec tableConst ⟨0, 0, 0⟩ 0 [cfgReactive] loudAudio).2.2
    (by decide)

/-- Claim C5: when every pattern in the list has `audioReactive = false`,
the evaluator's output does not depend on the live audio snapshot (only
the fixed neutral snapshot reaches the generators). -/
theorem evaluatePatterns_neutral_isolation (table : PatternType → PatternFn)
    (position : Vec3) (time : ℚ) (patterns : List PatternConfig)
    (h : ∀ p ∈ patterns, p.audioReactive = false)
    (audio1 audio2 : AudioAnalysis) :
    evaluatePatterns table position time patterns audio1 =
      evaluatePatterns table position time patterns audio2 := by
  have hfold : ∀ acc : ℚ × ℚ × ℚ,
      patterns.foldl (evalStep table position time audio1) acc =
        patterns.foldl (evalStep table position time audio2) acc := by
    induction patterns with
    | nil => intro acc; rfl
    | cons q qs ih =>
      intro acc
      have hq : q.audioReactive = false := h q (List.mem_cons_self q qs)
      have hqs : ∀ p ∈ qs, p.audioReactive = false := fun p hp =>
        h p (List.mem_cons_of_mem q hp)
      simp only [List.foldl_cons]
      rw [show evalStep table position time audio1 acc q =
            evalStep table position time audio2 acc q by
          simp [evalStep, hq]]
      exact ih hqs (evalStep table position time audio2 acc q)
  simp [evaluatePatterns, hfold]

/-- Witness for C5: a non-reactive pattern gives the same evaluator output
under silence and under a loud snapshot. -/
theorem evaluatePatterns_neutral_isolation_witness :
    evaluatePatterns tableConst ⟨0, 0, 0⟩ 0 [cfgNonReactive] silentAudio =
      evaluatePatterns tableConst ⟨0, 0, 0⟩ 0 [cfgNonReactive] loudAudio :=
  evaluatePatterns_neutral_isolation tableConst ⟨0, 0, 0⟩ 0 [cfgNonReactive]
    (by decide) silentAudio loudAudio

/-- `TimelineClip` (src/stores/timelineStore). `track` is the layer
index, an integer in every call site. -/
structure TimelineClip where
  id : String
  patternType : PatternType
  patternConfig : PatternConfig
  startTime : ℚ
  duration : ℚ
  track : ℤ
deriving DecidableEq

/-- The part of the timeline store state the scheduler logic reads. -/
structure TimelineStoreState where
  clips : List TimelineClip
  isTimelineMode : Bool
  selectedClipId : Option String
deriving DecidableEq

/-- Display names per pattern type (src/stores/timelineStore
`PATTERN_NAMES`). -/
def PATTERN_NAMES : PatternType → String
  | PatternType.wave => "Expanding Sphere"
  | PatternType.firework => "Burst Particles"
  | PatternType.rain => "Falling Streaks"
  | PatternType.pulse => "Beat Shells"
  | PatternType.blob => "Drifting Orbs"
  | PatternType.custom => "Custom"
  | PatternType.audioSpectrum => "Audio Spectrum"
  | PatternType.verticalWave => "Rising Tide"
  | PatternType.starfield => "Starfield"
  | PatternType.tetris => "Tetris Blocks"
  | PatternType.saturn => "Saturn"

/-- Default config attached to a fresh clip (src/stores/timelineStore
`getDefaultPatternConfig`, built over `DEFAULT_PATTERN_CONFIG` from
src/patterns/types); the generated random id is a parameter. -/
def getDefaultPatternConfig (id : String) (type : PatternType)
    (name : String) : PatternConfig :=
  ⟨id, type, name, true, true,
    ⟨1, 1, 0.5, ⟨0, 1, 0⟩, ⟨0, 0, 0⟩, some 1, some 0.5, some 1⟩⟩

/-- `addClip` (src/stores/timelineStore): appends a clip with clamped
start time, default 10s duration and clamped track; the two generated
random ids are parameters. -/
def addClip (s : TimelineStoreState) (patternType : PatternType)
    (startTime : ℚ) (track : ℤ) (id configId : String) : TimelineStoreState :=
  let clip : TimelineClip :=
    ⟨id, patternType,
      getDefaultPatternConfig configId patternType (PATTERN_NAMES patternType),
      max 0 startTime, 10, max 0 track⟩
  ⟨s.clips ++ [clip], s.isTimelineMode, some id⟩

/-- `removeClip` (src/stores/timelineStore). -/
def removeClip (s : TimelineStoreState) (id : String) : TimelineStoreState :=
  ⟨s.clips.filter (fun c => c.id ≠ id),
    s.isTimelineMode,
    if s.selectedClipId = some id then none else s.selectedClipId⟩

/-- A `Partial<TimelineClip>` update object as accepted by `updateClip`. -/
structure ClipPatch where
  id : Option String
  patternType : Option PatternType
  patternConfig : Option PatternConfig
  startTime : Option ℚ
  duration : Option ℚ
  track : Option ℤ
deriving DecidableEq

/-- JavaScript object spread `{ ...c, ...u }` for a clip patch. -/
def applyPatch (c : TimelineClip) (u : ClipPatch) : TimelineClip :=
  ⟨u.id.getD c.id, u.patternType.getD c.patternType,
    u.patternConfig.getD c.patternConfig, u.startTime.getD c.startTime,
    u.duration.getD c.duration, u.track.getD c.track⟩

/-- `updateClip` (src/stores/timelineStore): merges the partial update
into the matching clip without any clamping. -/
def updateClip (s : TimelineStoreState) (id : String) (u : ClipPatch) :
    TimelineStoreState :=
  ⟨s.clips.map (fun c => if c.id = id then applyPatch c u else c),
    s.isTimelineMode, s.selectedClipId⟩

/-- `moveClip` (src/stores/timelineStore): clamps the new start time and
track at 0. -/
def moveClip (s : TimelineStoreState) (id : String) (newStartTime : ℚ)
    (newTrack : ℤ) : TimelineStoreState :=
  ⟨s.clips.map (fun c =>
      if c.id = id then ⟨c.id, c.patternType, c.patternConfig,
        max 0 newStartTime, c.duration, max 0 newTrack⟩ else c),
    s.isTimelineMode, s.selectedClipId⟩

/-- `resizeClip` (src/stores/timelineStore): clamps the new duration at
1 second; resizing from the left edge moves the start time, clamped
at 0. -/
def resizeClip (s : TimelineStoreState) (id : String) (newDuration : ℚ)
    (fromLeft : Bool) : TimelineStoreState :=
  ⟨s.clips.map (fun c =>
      if c.id = id then
        let clampedDuration := max 1 newDuration
        if fromLeft then
          ⟨c.id, c.patternType, c.patternConfig,
            max 0 (c.startTime + (c.duration - clampedDuration)),
            clampedDuration, c.track⟩
        else
          ⟨c.id, c.patternType, c.patternConfig, c.startTime,
            clampedDuration, c.track⟩
      else c),
    s.isTimelineMode, s.selectedClipId⟩

/-- `getActiveClips` (src/stores/timelineStore): in timeline mode, the
clips whose half-open interval `[startTime, startTime + duration)`
contains the playback time; otherwise the empty list. -/
def getActiveClips (s : TimelineStoreState) (currentTime : ℚ) :
    List TimelineClip :=
  if !s.isTimelineMode then []
  else s.clips.filter (fun clip =>
    decide (clip.startTime ≤ currentTime) &&
      decide (currentTime < clip.startTime + clip.duration))

/-- `useTimelinePlayback` (timeline playback hook): in timeline mode the
active pattern set is the configs of the active clips, each forced
`enabled := true`; otherwise the enabled always-on patterns. -/
def useTimelinePlayback (patterns : List PatternConfig)
    (s : TimelineStoreState) (currentTime : ℚ) : List PatternConfig :=
  if !s.isTimelineMode then patterns.filter (fun p => p.enabled)
  else (getActiveClips s currentTime).map (fun clip =>
    ⟨clip.patternConfig.id, clip.patternConfig.type, clip.patternConfig.name,
      true, clip.patternConfig.audioReactive, clip.patternConfig.parameters⟩)

/-- The config of a clip with `enabled` forced to `true`. -/
def forcedEnabled (c : TimelineClip) : PatternConfig :=
  ⟨c.patternConfig.id, c.patternConfig.type, c.patternConfig.name,
    true, c.patternConfig.audioReactive, c.patternConfig.parameters⟩

/-- Claim C4: in timeline mode the active pattern set at time `t` is
exactly the configs of the clips with `t` in `[startTime, startTime +
duration)`, each forced `enabled = true`; all overlapping clips
contribute. -/
theorem useTimelinePlayback_timeline_mode (patterns : List PatternConfig)
    (clips : List TimelineClip) (selected : Option String) (t : ℚ)
    (p : PatternConfig) :
    p ∈ useTimelinePlayback patterns ⟨clips, true, selected⟩ t ↔
      ∃ c ∈ clips, c.startTime ≤ t ∧ t < c.startTime + c.duration ∧
        p = forcedEnabled c := by
  simp only [useTimelinePlayback, getActiveClips, Bool.not_true,
    Bool.false_eq_true, if_false, List.mem_map, List.mem_filter,
    Bool.and_eq_true, decide_eq_true_eq, forcedEnabled]
  constructor
  · rintro ⟨c, ⟨hc, h1, h2⟩, rfl⟩
    exact ⟨c, hc, h1, h2, rfl⟩
  · rintro ⟨c, hc, h1, h2, rfl⟩
    exact ⟨c, ⟨hc, h1, h2⟩, rfl⟩

/-- A concrete clip starting at 5s with a 10s duration. -/
def clipAt5 : TimelineClip :=
  ⟨"c5", PatternType.wave, cfgReactive, 5, 10, 0⟩

/-- Witness for C4: the clip `startTime=5, duration=10` is active at
`t = 5` and `t = 14.999` and inactive at `t = 4.999` and `t = 15`. -/
theorem useTimelinePlayback_timeline_mode_witness :
    forcedEnabled clipAt5 ∈
        useTimelinePlayback [] ⟨[clipAt5], true, none⟩ 5 ∧
      forcedEnabled clipAt5 ∈
        useTimelinePlayback [] ⟨[clipAt5], true, none⟩ (14999 / 1000) ∧
      forcedEnabled clipAt5 ∉
        useTimelinePlayback [] ⟨[clipAt5], true, none⟩ (4999 / 1000) ∧
      forcedEnabled clipAt5 ∉
        useTimelinePlayback [] ⟨[clipAt5], true, none⟩ 15 := by
  refine ⟨?_, ?_, ?_, ?_⟩
  · exact (useTimelinePlayback_timeline_mode [] [clipAt5] none 5
      (forcedEnabled clipAt5)).mpr
      ⟨clipAt5, List.mem_singleton_self clipAt5, by norm_num [clipAt5],
        by norm_num [clipAt5], rfl⟩
  · exact (useTimelinePlayback_timeline_mode [] [clipAt5] none
      (14999 / 1000) (forcedEnabled clipAt5)).mpr
      ⟨clipAt5, List.mem_singleton_self clipAt5, by norm_num [clipAt5],
        by norm_num [clipAt5], rfl⟩
  · intro hmem
    rcases (useTimelinePlayback_timeline_mode [] [clipAt5] none
      (4999 / 1000) (forcedEnabled clipAt5)).mp hmem with ⟨c, hc, h1, _, _⟩
    rw [List.mem_singleton.mp hc] at h1
    exact absurd h1 (by norm_num [clipAt5])
  · intro hmem
    rcases (useTimelinePlayback_timeline_mode [] [clipAt5] none 15
      (forcedEnabled clipAt5)).mp hmem with ⟨c, hc, _, h2, _⟩
    rw [List.mem_singleton.mp hc] at h2
    exact absurd h2 (by norm_num [clipAt5])

/-- The clip invariants stated by the data model: nonnegative start time,
duration of at least one second, nonnegative (integer) track. -/
def ClipInvariant (c : TimelineClip) : Prop :=
  0 ≤ c.startTime ∧ 1 ≤ c.duration ∧ 0 ≤ c.track

instance (c : TimelineClip) : Decidable (ClipInvariant c) := by
  unfold ClipInvariant; infer_instance

/-- All clips of a store state satisfy the clip invariants. -/
def StoreInvariant (s : TimelineStoreState) : Prop :=
  ∀ c ∈ s.clips, ClipInvariant c

instance (s : TimelineStoreState) : Decidable (StoreInvariant s) := by
  unfold StoreInvariant; infer_instance

/-- Claim C9 (amended): the clip invariants are preserved by `addClip`,
`removeClip`, `moveClip` and `resizeClip` for arbitrary arguments, and by
`updateClip` provided the update itself keeps any start time it sets
nonnegative, any duration it sets at least 1, and any track it sets
nonnegative; `updateClip` performs no clamping of its own. -/
theorem timelineStore_invariant_preservation (s : TimelineStoreState)
    (hs : StoreInvariant s) :
    (∀ ty t tr id cid, StoreInvariant (addClip s ty t tr id cid)) ∧
      (∀ id, StoreInvariant (removeClip s id)) ∧
      (∀ id t tr, StoreInvariant (moveClip s id t tr)) ∧
      (∀ id d fl, StoreInvariant (resizeClip s id d fl)) ∧
      (∀ id u, (∀ t ∈ u.startTime, 0 ≤ t) → (∀ d ∈ u.duration, 1 ≤ d) →
        (∀ tr ∈ u.track, 0 ≤ tr) → StoreInvariant (updateClip s id u)) := by
  refine ⟨?_, ?_, ?_, ?_, ?_⟩
  · intro ty t tr id cid c hc
    rcases List.mem_append.mp hc with hold | hnew
    · exact hs c hold
    · rw [List.mem_singleton.mp hnew]
      exact ⟨le_max_left 0 t, by norm_num, le_max_left 0 tr⟩
  · intro id c hc
    exact hs c (List.mem_of_mem_filter hc)
  · intro id t tr c hc
    rcases List.mem_map.mp hc with ⟨c0, hc0, rfl⟩
    by_cases h : c0.id = id
    · simp only [moveClip, if_pos h]
      exact ⟨le_max_left 0 t, (hs c0 hc0).2.1, le_max_left 0 tr⟩
    · simp only [moveClip, if_neg h]
      exact hs c0 hc0
  · intro id d fl c hc
    rcases List.mem_map.mp hc with ⟨c0, hc0, rfl⟩
    by_cases h : c0.id = id
    · cases fl with
      | false =>
        simp only [resizeClip, if_pos h, Bool.false_eq_true, if_false]
        exact ⟨(hs c0 hc0).1, le_max_left 1 d, (hs c0 hc0).2.2⟩
      | true =>
        simp only [resizeClip, if_pos h, if_true]
        exact ⟨le_max_left 0 _, le_max_left 1 d, (hs c0 hc0).2.2⟩
    · simp only [resizeClip, if_neg h]
      exact hs c0 hc0
  · intro id u hst hd htr c hc
    rcases List.mem_map.mp hc with ⟨c0, hc0, rfl⟩
    by_cases h : c0.id = id
    · simp only [if_pos h, applyPatch]
      refine ⟨?_, ?_, ?_⟩
      · cases hu : u.startTime with
        | none => simpa [hu] using (hs c0 hc0).1
        | some t => simpa [hu] using hst t (by rw [hu]; rfl)
      · cases hu : u.duration with
        | none => simpa [hu] using (hs c0 hc0).2.1
        | some d => simpa [hu] using hd d (by rw [hu]; rfl)
      · cases hu : u.track with
        | none => simpa [hu] using (hs c0 hc0).2.2
        | some tr => simpa [hu] using htr tr (by rw [hu]; rfl)
    · simp only [if_neg h]
      exact hs c0 hc0

/-- A concrete valid store holding one clip. -/
def storeOneClip : TimelineStoreState :=
  ⟨[⟨"c1", PatternType.wave, cfgReactive, 0, 10, 0⟩], false, none⟩

/-- A clip update that sets a negative start time. -/
def negStartPatch : ClipPatch :=
  ⟨none, none, none, some (-1), none, none⟩

/-- Counterexample for C9 as stated: starting from a store satisfying the
invariants, the store operation `updateClip` (with an update whose start
time is −1) yields a clip violating `startTime ≥ 0` — the source applies
partial updates without clamping. -/
theorem updateClip_invariant_counterexample :
    StoreInvariant storeOneClip ∧
      ¬ StoreInvariant (updateClip storeOneClip "c1" negStartPatch) := by
  constructor
  · intro c hc
    rw [List.mem_singleton.mp hc]
    exact ⟨le_refl 0, by norm_num, le_refl 0⟩
  · intro h
    have hc := h ⟨"c1", PatternType.wave, cfgReactive, -1, 10, 0⟩ (by
      simp [updateClip, storeOneClip, negStartPatch, applyPatch])
    have : (0:ℚ) ≤ -1 := hc.1
    norm_num at this

/-- Witness for the amended C9 at a concrete input. -/
theorem timelineStore_invariant_preservation_witness :
    StoreInvariant (moveClip storeOneClip "c1" (-7) (-2)) :=
  (timelineStore_invariant_preservation storeOneClip (by decide)).2.2.1
    "c1" (-7) (-2)



/-- Mutable fields of `AudioAnalyzer` read by beat detection
(src/services/audioAnalyzer.ts). -/
structure AnalyzerState where
  lastBeatTime : ℚ
  previousAmplitude : ℚ
  bpmHistory : List ℚ
deriving DecidableEq

/-- Initial analyzer state (fields initialised to `0` / empty). -/
def initAnalyzerState : AnalyzerState := ⟨0, 0, []⟩

/-- `recordBeat` (src/services/audioAnalyzer.ts): pushes the
instantaneous BPM of the inter-beat interval when it lies in `[60,180]`,
keeping at most the last 12 entries; it runs before `lastBeatTime` is
overwritten, so it reads the previous beat time. -/
def recordBeat (s : AnalyzerState) (time : ℚ) : AnalyzerState :=
  if s.lastBeatTime > 0 then
    let interval := time - s.lastBeatTime
    let instantBPM := 60000 / interval
    if 60 ≤ instantBPM ∧ instantBPM ≤ 180 then
      let h := s.bpmHistory ++ [instantBPM]
      ⟨s.lastBeatTime, s.previousAmplitude, if h.length > 12 then h.tail else h⟩
    else s
  else s

/-- `detectBeat` (src/services/audioAnalyzer.ts): returns whether the
frame is a beat together with the updated analyzer state. Inside the
cooldown window the function returns early and leaves the state
untouched; otherwise it always stores the weighted combination as the
new `previousAmplitude` and reports a beat exactly when the combination
exceeds the 0.65 threshold, exceeds the previous combination by more
than 10%, and raw bass exceeds 0.4. -/
def detectBeat (s : AnalyzerState) (now bass amplitude : ℚ) :
    Bool × AnalyzerState :=
  if now - s.lastBeatTime < 150 then (false, s)
  else
    let combined := bass * 0.7 + amplitude * 0.3
    let s1 : AnalyzerState := ⟨s.lastBeatTime, combined, s.bpmHistory⟩
    if combined > 0.65 ∧ combined > s.previousAmplitude * 1.1 ∧ bass > 0.4 then
      let s2 := recordBeat s1 now
      (true, ⟨now, s2.previousAmplitude, s2.bpmHistory⟩)
    else (false, s1)

/-- Runs `detectBeat` over a sequence of `(timestamp, bass, amplitude)`
frames, returning each frame's beat flag paired with its timestamp. -/
def runDetect (s : AnalyzerState) : List (ℚ × ℚ × ℚ) → List (Bool × ℚ)
  | [] => []
  | c :: rest =>
    let r := detectBeat s c.1 c.2.1 c.2.2
    (r.1, c.1) :: runDetect r.2 rest

/-- `recordBeat` never changes `lastBeatTime`. -/
lemma recordBeat_lastBeatTime (s : AnalyzerState) (time : ℚ) :
    (recordBeat s time).lastBeatTime = s.lastBeatTime := by
  unfold recordBeat
  dsimp only
  split_ifs <;> rfl

/-- `detectBeat` never decreases `lastBeatTime`. -/
lemma detectBeat_lastBeatTime_mono (s : AnalyzerState) (now bass amplitude : ℚ) :
    s.lastBeatTime ≤ (detectBeat s now bass amplitude).2.lastBeatTime := by
  unfold detectBeat
  dsimp only
  split_ifs with h1 h2
  · exact le_refl _
  · dsimp only
    linarith [not_lt.mp h1]
  · exact le_refl _

/-- `detectBeat` reports a beat when the cooldown has passed and the
threshold, rising-edge and bass conditions hold. -/
lemma detectBeat_fire (s : AnalyzerState) (now bass amplitude : ℚ)
    (h1 : ¬ now - s.lastBeatTime < 150)
    (h2 : bass * 0.7 + amplitude * 0.3 > 0.65 ∧
      bass * 0.7 + amplitude * 0.3 > s.previousAmplitude * 1.1 ∧ bass > 0.4) :
    (detectBeat s now bass amplitude).1 = true := by
  unfold detectBeat
  dsimp only
  rw [if_neg h1, if_pos h2]

/-- A reported beat happens at least 150ms after the entry state's last
beat time. -/
lemma detectBeat_beat_time (s : AnalyzerState) (now bass amplitude : ℚ)
    (h : (detectBeat s now bass amplitude).1 = true) :
    s.lastBeatTime + 150 ≤ now := by
  unfold detectBeat at h
  dsimp only at h
  split_ifs at h with h1 h2
  · linarith [not_lt.mp h1]

/-- After a reported beat the stored last beat time is the beat's
timestamp. -/
lemma detectBeat_beat_state (s : AnalyzerState) (now bass amplitude : ℚ)
    (h : (detectBeat s now bass amplitude).1 = true) :
    (detectBeat s now bass amplitude).2.lastBeatTime = now := by
  unfold detectBeat at h ⊢
  dsimp only at h ⊢
  split_ifs at h ⊢
  rfl

/-- Every beat reported during a run happens at least 150ms after the
starting state's last beat time. -/
lemma runDetect_beat_after (calls : List (ℚ × ℚ × ℚ)) (s : AnalyzerState) :
    ∀ pr ∈ runDetect s calls, pr.1 = true → s.lastBeatTime + 150 ≤ pr.2 := by
  induction calls generalizing s with
  | nil => intro pr hpr; simp [runDetect] at hpr
  | cons c rest ih =>
    intro pr hpr hbeat
    simp only [runDetect, List.mem_cons] at hpr
    rcases hpr with rfl | htail
    · exact detectBeat_beat_time s c.1 c.2.1 c.2.2 hbeat
    · have h1 := ih (detectBeat s c.1 c.2.1 c.2.2).2 pr htail hbeat
      have h2 := detectBeat_lastBeatTime_mono s c.1 c.2.1 c.2.2
      linarith

/-- Claim C2: (1) `detectBeat` reports a beat only if at least 150ms
have elapsed since the stored last beat, the combination
`0.7·bass + 0.3·amplitude` exceeds 0.65, that combination exceeds the
previous frame's combination by more than 10%, and raw bass exceeds
0.4; (2) over any run, two frames both reported as beats have
timestamps at least 150ms apart; (3) a frame 200ms or more after a
reported beat that satisfies the threshold, rising-edge and bass
conditions is again reported as a beat. -/
theorem detectBeat_spec :
    (∀ (s : AnalyzerState) (now bass amplitude : ℚ),
      (detectBeat s now bass amplitude).1 = true →
        s.lastBeatTime + 150 ≤ now ∧
          bass * 0.7 + amplitude * 0.3 > 0.65 ∧
          bass * 0.7 + amplitude * 0.3 > s.previousAmplitude * 1.1 ∧
          bass > 0.4) ∧
    (∀ (s : AnalyzerState) (calls : List (ℚ × ℚ × ℚ)),
      List.Pairwise (fun x y => x.1 = true → y.1 = true → x.2 + 150 ≤ y.2)
        (runDetect s calls)) ∧
    (∀ (s : AnalyzerState) (t1 b1 a1 t2 b2 a2 : ℚ),
      (detectBeat s t1 b1 a1).1 = true →
      t1 + 200 ≤ t2 →
      b2 * 0.7 + a2 * 0.3 > 0.65 →
      b2 * 0.7 + a2 * 0.3 >
        (detectBeat s t1 b1 a1).2.previousAmplitude * 1.1 →
      b2 > 0.4 →
      (detectBeat (detectBeat s t1 b1 a1).2 t2 b2 a2).1 = true) := by
  refine ⟨?_, ?_, ?_⟩
  · intro s now bass amplitude h
    have htime := detectBeat_beat_time s now bass amplitude h
    unfold detectBeat at h
    dsimp only at h
    split_ifs at h with h1 h2
    exact ⟨htime, h2.1, h2.2.1, h2.2.2⟩
  · intro s calls
    induction calls generalizing s with
    | nil => exact List.Pairwise.nil
    | cons c rest ih =>
      refine List.Pairwise.cons ?_ (ih (detectBeat s c.1 c.2.1 c.2.2).2)
      intro y hy hbeat hybeat
      have hstate := detectBeat_beat_state s c.1 c.2.1 c.2.2 hbeat
      have hafter := runDetect_beat_after rest (detectBeat s c.1 c.2.1 c.2.2).2 y hy hybeat
      rw [hstate] at hafter
      exact hafter
  · intro s t1 b1 a1 t2 b2 a2 hbeat1 hgap hthr hrise hbass
    have hstate := detectBeat_beat_state s t1 b1 a1 hbeat1
    exact detectBeat_fire _ t2 b2 a2
      (by rw [hstate]; intro hlt; linarith) ⟨hthr, hrise, hbass⟩

/-- Witness for C2: from the initial state, frames at 200ms and 400ms
with loud bass both satisfy the gate and both report beats. -/
theorem detectBeat_spec_witness :
    (detectBeat initAnalyzerState 200 0.8 0.8).1 = true ∧
      (detectBeat (detectBeat initAnalyzerState 200 0.8 0.8).2 400 1 1).1 = true := by
  have h1 : (detectBeat initAnalyzerState 200 0.8 0.8).1 = true :=
    detectBeat_fire initAnalyzerState 200 0.8 0.8 (by norm_num [initAnalyzerState])
      (by norm_num [initAnalyzerState])
  refine ⟨h1, detectBeat_spec.2.2 initAnalyzerState 200 0.8 0.8 400 1 1 h1
    (by norm_num) ?_ ?_ (by norm_num)⟩
  · norm_num
  · have hprev : (detectBeat initAnalyzerState 200 0.8 0.8).2.previousAmplitude =
        0.8 * 0.7 + 0.8 * 0.3 := by
      unfold detectBeat initAnalyzerState
      dsimp only
      rw [if_neg (by norm_num), if_pos (by norm_num)]
      dsimp only
      rw [recordBeat]
      norm_num
    rw [hprev]
    norm_num

/-- `0 ≤ jsRem a 1 < 1` for a nonnegative dividend. -/
lemma jsRem_one_nonneg (a : ℚ) (h : 0 ≤ a) : 0 ≤ jsRem a 1 ∧ jsRem a 1 < 1 := by
  unfold jsRem jsTrunc
  rw [div_one, if_pos h, one_mul]
  constructor
  · have := Int.floor_le a
    linarith
  · have := Int.lt_floor_add_one a
    push_cast at this
    linarith

/-- `jsRem a 1` always lies strictly between −1 and 1 (the JavaScript `%`
keeps the dividend's sign). -/
lemma jsRem_one_bounds (a : ℚ) : -1 < jsRem a 1 ∧ jsRem a 1 < 1 := by
  by_cases h : 0 ≤ a
  · have := jsRem_one_nonneg a h
    exact ⟨by linarith [this.1], this.2⟩
  · unfold jsRem jsTrunc
    rw [div_one, if_neg h, one_mul]
    have h1 := Int.le_ceil a
    have h2 := Int.ceil_lt_add_one a
    push_cast at h1 h2
    constructor <;> linarith

/-- The final clamp `Math.min(1, Math.max(0, x))` lands in `[0,1]`. -/
lemma clamp01 (x : ℚ) : 0 ≤ min 1 (max 0 x) ∧ min 1 (max 0 x) ≤ 1 :=
  ⟨le_min (by norm_num) (le_max_left 0 x), min_le_left _ _⟩

/-- The fractional-part hash `s - ⌊s⌋` lies in `[0,1)`. -/
lemma fract_hash_bounds (s : ℚ) : 0 ≤ s - ⌊s⌋ ∧ s - ⌊s⌋ < 1 := by
  constructor
  · have := Int.floor_le s
    linarith
  · have := Int.lt_floor_add_one s
    push_cast at this
    linarith

/-- The projection of the sample point onto the normalised direction
vector computed at the top of `linearWave` (src wave module), including
the `Math.sqrt(...) || 1` guard against a zero-length direction. -/
def linearWaveProjection (O : MathOps) (config : PatternConfig)
    (position : Vec3) : ℚ :=
  let dirX := config.parameters.direction.x
  let dirY := config.parameters.direction.y
  let dirZ := config.parameters.direction.z
  let dirLen0 := O.sqrt (dirX * dirX + dirY * dirY + dirZ * dirZ)
  let dirLen := if dirLen0 = 0 then 1 else dirLen0
  position.x * (dirX / dirLen) + position.y * (dirY / dirLen) +
    position.z * (dirZ / dirLen)

/-- `linearWave` (src wave module; dispatched as the `custom` generator):
a smooth plane of light sweeping along the direction vector. -/
def linearWave (O : MathOps) : PatternFn := fun position time config audio =>
  let projection := linearWaveProjection O config position
  let speed := config.parameters.speed * (1 + audio.mid * 0.2)
  let wavePhase := projection * 0.3 - time * speed * 3
  let wave1 := O.sin wavePhase * 0.5 + 0.5
  let wave2 := O.sin (wavePhase * 0.6 + 2) * 0.5 + 0.5
  let intensity0 := (wave1 * 0.6 + wave2 * 0.4) * config.parameters.intensity
  let intensity1 := intensity0 * (0.4 + audio.amplitude * 0.8)
  let heightMod := O.sin (position.y * 0.5 + time) * 0.15 + 0.85
  let intensity2 := intensity1 * heightMod
  ⟨min 1 (max 0 intensity2), jsRem (projection * 0.08 + time * 0.12) 1⟩

/-- `starfieldPattern` (src/patterns/generators/extras.ts): sparse
per-point star mask from a trigonometric hash, twinkling at a hashed
frequency. -/
def starfieldPattern (O : MathOps) : PatternFn := fun position time config audio =>
  let px := position.x
  let py := position.y
  let pz := position.z
  let starSeed := O.sin (px * 12.9898 + py * 78.233 + pz * 37.719) * 43758.5453
  let starId := starSeed - ⌊starSeed⌋
  let isStarThreshold := 0.15 + audio.amplitude * 0.2
  let intensity :=
    if starId < isStarThreshold then
      let twinkleSpeed := 2 + starId * 6
      let twinklePhase := starId * O.pi * 2
      let twinkle := O.sin (time * twinkleSpeed + twinklePhase) * 0.5 + 0.5
      let baseBrightness := 0.3 + starId * 0.7
      let audioBoost := 1 + audio.treble * 1.5
      let beatFlash : ℚ := if audio.beat = true ∧ starId > 0.5 then 0.5 else 0
      (twinkle * baseBrightness * audioBoost + beatFlash) * config.parameters.intensity
    else 0
  ⟨min 1 (max 0 intensity), starId⟩

/-- Contribution of drop `d` of the per-column rain loop
(src rain module); a drop whose window misses the point contributes 0,
which the strictly-increasing accumulator then ignores. -/
def rainDropContribution (O : MathOps) (config : PatternConfig)
    (audio : AudioAnalysis) (speed columnId py time d : ℚ) : ℚ :=
  let dropPhase := (columnId + d * 333) / 1000
  let dropSpeed := speed * (0.8 + jsRem columnId 100 / 200)
  let cycleLength := 10 / dropSpeed
  let dropProgress := jsRem (time * dropSpeed + dropPhase * cycleLength) cycleLength / cycleLength
  let easeProgress := dropProgress * dropProgress * (3 - 2 * dropProgress)
  let dropY := 12 - easeProgress * 14
  let dropLength := 2.0 * config.parameters.scale
  let distFromDrop := py - dropY
  if distFromDrop > -dropLength * 0.3 ∧ distFromDrop < dropLength then
    let normalizedDist := (distFromDrop + dropLength * 0.3) / (dropLength * 1.3)
    let dropIntensity := O.cos (normalizedDist * O.pi * 0.5) * config.parameters.intensity
    let audioBoost := 0.6 + audio.bass * 0.6
    dropIntensity * audioBoost * (1 - d * 0.3)
  else 0

/-- `rainPattern` (src rain module): two deterministic drops per column
with smoothstep easing, ground splash on bass and ambient shimmer. -/
def rainPattern (O : MathOps) : PatternFn := fun position time config audio =>
  let speed := config.parameters.speed * (1 + audio.amplitude * 0.2)
  let px := position.x
  let py := position.y
  let pz := position.z
  let columnSeed := O.sin (px * 12.9898 + pz * 78.233) * 43758.5453
  let columnId := (columnSeed - ⌊columnSeed⌋) * 1000
  let contribution0 := rainDropContribution O config audio speed columnId py time 0
  let contribution1 := rainDropContribution O config audio speed columnId py time 1
  let intensityA := if contribution0 > 0 then contribution0 else 0
  let intensityB := if contribution1 > intensityA then contribution1 else intensityA
  let splash :=
    if py < 2 ∧ audio.bass > 0.3 then
      let groundFade := 1 - py / 2
      let splashWave := O.sin (time * 8 + columnId * 0.01) * 0.5 + 0.5
      groundFade * splashWave * audio.bass * 0.4 * config.parameters.intensity
    else 0
  let intensityC := max intensityB splash
  let shimmer := O.sin (px * 2 + py * 3 + pz * 2 + time * 5) * 0.5 + 0.5
  let ambientRain := shimmer * audio.amplitude * 0.15 * config.parameters.intensity
  let intensityD := max intensityC ambientRain
  ⟨min 1 (max 0 intensityD), jsRem (columnId / 1000 + time * 0.08) 1⟩

/-- Claim C7 (amended): for the `linearWave`, `starfield` and `rain`
generators the returned intensity always lies in `[0,1]`; the starfield
colorShift always lies in `[0,1)`; the rain colorShift lies in `[0,1)`
for nonnegative time; the linearWave colorShift always lies strictly
between −1 and 1, and lies in `[0,1)` whenever the JavaScript `%`
receives a nonnegative argument `projection·0.08 + time·0.12` — but it
is not always in `[0,1)`: with a negative argument it can be negative
(−1/2 at the counterexample input). -/
theorem generator_range_contract (O : MathOps) (position : Vec3)
    (time : ℚ) (config : PatternConfig) (audio : AudioAnalysis) :
    (0 ≤ (linearWave O position time config audio).intensity ∧
      (linearWave O position time config audio).intensity ≤ 1) ∧
    (0 ≤ (starfieldPattern O position time config audio).intensity ∧
      (starfieldPattern O position time config audio).intensity ≤ 1) ∧
    (0 ≤ (rainPattern O position time config audio).intensity ∧
      (rainPattern O position time config audio).intensity ≤ 1) ∧
    (0 ≤ (starfieldPattern O position time config audio).colorShift ∧
      (starfieldPattern O position time config audio).colorShift < 1) ∧
    (0 ≤ time →
      0 ≤ (rainPattern O position time config audio).colorShift ∧
        (rainPattern O position time config audio).colorShift < 1) ∧
    (-1 < (linearWave O position time config audio).colorShift ∧
      (linearWave O position time config audio).colorShift < 1) ∧
    (0 ≤ linearWaveProjection O config position * 0.08 + time * 0.12 →
      0 ≤ (linearWave O position time config audio).colorShift ∧
        (linearWave O position time config audio).colorShift < 1) := by
  refine ⟨?_, ?_, ?_, ?_, ?_, ?_, ?_⟩
  · unfold linearWave
    exact clamp01 _
  · unfold starfieldPattern
    exact clamp01 _
  · unfold rainPattern
    exact clamp01 _
  · unfold starfieldPattern
    dsimp only
    exact fract_hash_bounds _
  · intro ht
    unfold rainPattern
    dsimp only
    apply jsRem_one_nonneg
    have hcol := fract_hash_bounds (O.sin (position.x * 12.9898 + position.z * 78.233) * 43758.5453)
    have h1 : (0:ℚ) ≤ (O.sin (position.x * 12.9898 + position.z * 78.233) * 43758.5453 -
        ⌊O.sin (position.x * 12.9898 + position.z * 78.233) * 43758.5453⌋) * 1000 / 1000 := by
      apply div_nonneg _ (by norm_num)
      exact mul_nonneg hcol.1 (by norm_num)
    have h2 : (0:ℚ) ≤ time * 0.08 := mul_nonneg ht (by norm_num)
    linarith
  · unfold linearWave
    dsimp only
    exact jsRem_one_bounds _
  · intro h
    unfold linearWave
    dsimp only
    exact jsRem_one_nonneg _ h

/-- Stub operation record used for concrete evaluations: `sin`, `cos`,
`exp`, `acos`, `pow` and `pi` return 0, `sqrt` is exact on the one
perfect square it receives. -/
def stubOps : MathOps :=
  ⟨fun _ => 0, fun _ => 0, fun q => if q = 1 then 1 else 0,
    fun _ => 0, fun _ => 0, fun _ _ => 0, 0⟩

/-- A config whose direction is the unit x-axis. -/
def cfgDirX : PatternConfig :=
  ⟨"p3", PatternType.custom, "Custom", true, true,
    ⟨1, 1, 1, ⟨1, 0, 0⟩, ⟨0, 0, 0⟩, none, none, none⟩⟩

/-- Counterexample for C7 as stated: at position `(-25/4, 0, 0)` with
direction `(1,0,0)` and time 0, `linearWave` returns
`colorShift = -1/2 ∉ [0,1)`: the JavaScript `%` keeps the sign of the
negative projection term. -/
theorem linearWave_colorShift_negative_counterexample :
    (linearWave stubOps ⟨-25/4, 0, 0⟩ 0 cfgDirX silentAudio).colorShift = -(1/2) := by
  have hproj : linearWaveProjection stubOps cfgDirX ⟨-25/4, 0, 0⟩ = -25/4 := by
    unfold linearWaveProjection stubOps cfgDirX
    norm_num
  unfold linearWave
  dsimp only
  rw [hproj]
  unfold jsRem jsTrunc
  rw [show (-25/4 * 0.08 + 0 * 0.12 : ℚ) = -(1/2) by norm_num]
  rw [div_one, if_neg (by norm_num)]
  rw [show ⌈(-(1/2) : ℚ)⌉ = 0 by
    rw [Int.ceil_eq_iff]
    norm_num]
  norm_num

/-- Witness for the amended C7 at a concrete input. -/
theorem generator_range_contract_witness :
    0 ≤ (rainPattern stubOps ⟨0, 0, 0⟩ 0 cfgDirX silentAudio).colorShift ∧
      (rainPattern stubOps ⟨0, 0, 0⟩ 0 cfgDirX silentAudio).colorShift < 1 :=
  (generator_range_contract stubOps ⟨0, 0, 0⟩ 0 cfgDirX
    silentAudio).2.2.2.2.1 (le_refl 0)

/-- One pulse shell: spawn time and jittered origin. The source keeps
four parallel arrays (`pulseTimes`, `pulseOriginX/Y/Z`) that are always
pushed, shifted and spliced together; they are modelled as one list of
records. -/
structure PulseEntry where
  t : ℚ
  x : ℚ
  y : ℚ
  z : ℚ
deriving DecidableEq

/-- Module-level mutable state of the pulse generator (src pulse
module). -/
structure PulseState where
  pulses : List PulseEntry
  lastBeatTime : ℚ
  lastAutoTime : ℚ
deriving DecidableEq

/-- Initial (module-load) pulse state. -/
def initPulseState : PulseState := ⟨[], 0, 0⟩

/-- Adding a new pulse, removing the oldest if at the `MAX_PULSES = 10`
limit (src pulse module, spawn branch). -/
def pulseSpawnPush (l : List PulseEntry) (e : PulseEntry) : List PulseEntry :=
  (if l.length ≥ 10 then l.tail else l) ++ [e]

/-- Body of the pulse evaluation loop for the pulse of original index
`i`: expanding shell with quadratic edge falloff and exponential time
decay; a strictly larger contribution replaces the running best and its
color accumulator. -/
def pulseEvalStep (O : MathOps) (config : PatternConfig)
    (time px py pz decay maxPulseLife : ℚ) (acc : ℚ × ℚ)
    (entry : ℕ × PulseEntry) : ℚ × ℚ :=
  let i := entry.1
  let p := entry.2
  let age := time - p.t
  if age > maxPulseLife then acc
  else
    let shellRadius := age * config.parameters.speed * 5
    let shellThickness := 2.0 * config.parameters.scale
    let dx := px - p.x
    let dy := py - p.y
    let dz := pz - p.z
    let distance := O.sqrt (dx * dx + dy * dy + dz * dz)
    let distFromShell := |distance - shellRadius|
    if distFromShell < shellThickness then
      let shellFalloff := 1 - distFromShell / shellThickness
      let timeFalloff := O.exp (-age * decay)
      let contribution := shellFalloff * shellFalloff * timeFalloff *
        config.parameters.intensity
      if contribution > acc.1 then (contribution, (i : ℚ) / 10 + age * 0.2)
      else acc
    else acc

/-- `pulsePattern` (src pulse module): spawns an expanding shell on a
beat (0.25s cooldown) or by auto-trigger when amplitude stays below 0.1
for more than 1s, evaluates all live shells (iterating from the newest
backwards, as the source's downward loop does) and drops shells older
than `4 / decay`. -/
def pulsePattern (O : MathOps) (rng : ℕ → ℚ) (position : Vec3) (time : ℚ)
    (config : PatternConfig) (audio : AudioAnalysis) (s : PulseState) :
    EvalResult × PulseState :=
  let originX := config.parameters.origin.x
  let originY := config.parameters.origin.y
  let originZ := config.parameters.origin.z
  let shouldTrigger := audio.beat = true ∧ time - s.lastBeatTime > 0.25
  let autoTrigger := audio.amplitude < 0.1 ∧ time - s.lastAutoTime > 1.0
  let lastBeat1 := if shouldTrigger then time else s.lastBeatTime
  let lastAuto1 := if autoTrigger then time else s.lastAutoTime
  let pulses1 :=
    if shouldTrigger ∨ autoTrigger then
      pulseSpawnPush s.pulses
        ⟨time, originX + (rng 0 - 0.5) * 4, originY + (rng 1 - 0.5) * 4,
          originZ + (rng 2 - 0.5) * 4⟩
    else s.pulses
  let decay := jsOr config.parameters.decay 0.5
  let maxPulseLife := 4 / decay
  let px := position.x
  let py := position.y
  let pz := position.z
  let best := (pulses1.enum.reverse).foldl
    (pulseEvalStep O config time px py pz decay maxPulseLife) (0, 0)
  let pulses2 := pulses1.filter (fun e => decide (time - e.t ≤ maxPulseLife))
  (⟨min 1 best.1, jsRem best.2 1⟩, ⟨pulses2, lastBeat1, lastAuto1⟩)

/-- The pulse spawn push keeps the list within the cap. -/
lemma pulseSpawnPush_length (l : List PulseEntry) (e : PulseEntry)
    (h : l.length ≤ 10) : (pulseSpawnPush l e).length ≤ 10 := by
  unfold pulseSpawnPush
  by_cases hl : l.length ≥ 10
  · rw [if_pos hl]
    simp only [List.length_append, List.length_tail, List.length_singleton]
    omega
  · rw [if_neg hl]
    simp only [List.length_append, List.length_singleton]
    omega

/-- One pulse call keeps the shell list within the cap. -/
lemma pulsePattern_cap (O : MathOps) (rng : ℕ → ℚ) (position : Vec3)
    (time : ℚ) (config : PatternConfig) (audio : AudioAnalysis)
    (s : PulseState) (h : s.pulses.length ≤ 10) :
    (pulsePattern O rng position time config audio s).2.pulses.length ≤ 10 := by
  unfold pulsePattern
  dsimp only
  apply le_trans (List.length_filter_le _ _)
  by_cases hc : (audio.beat = true ∧ time - s.lastBeatTime > 0.25) ∨
      (audio.amplitude < 0.1 ∧ time - s.lastAutoTime > 1.0)
  · rw [if_pos hc]
    exact pulseSpawnPush_length _ _ h
  · rw [if_neg hc]
    exact h

/-- One firework particle (src/patterns/generators/firework.ts
`Particle`). -/
structure Particle where
  ox : ℚ
  oy : ℚ
  oz : ℚ
  vx : ℚ
  vy : ℚ
  vz : ℚ
  startTime : ℚ
  life : ℚ
  colorSeed : ℚ
deriving DecidableEq

/-- Module-level mutable state of the firework generator. -/
structure FireworkState where
  particles : List Particle
  lastBeatTime : ℚ
  lastAutoTime : ℚ
deriving DecidableEq

/-- Initial (module-load) firework state. -/
def initFireworkState : FireworkState := ⟨[], 0, 0⟩

/-- One iteration of the firework spawn loop: removes the oldest
particle when at the `MAX_PARTICLES = 200` limit, then pushes the new
one. -/
def fireworkSpawnStep (l : List Particle) (p : Particle) : List Particle :=
  (if l.length ≥ 200 then l.tail else l) ++ [p]

/-- Particle `i` of a burst: spherically distributed velocity from the
three randoms of loop iteration `i` (indices `3 + 5i …` of the call's
random stream, after the three burst-origin randoms), plus random life
and color seed. -/
def mkParticle (O : MathOps) (rng : ℕ → ℚ) (ox oy oz speed time : ℚ)
    (i : ℕ) : Particle :=
  let theta := rng (3 + 5 * i) * O.pi * 2
  let phi := O.acos (2 * rng (3 + 5 * i + 1) - 1)
  let spd := (1 + rng (3 + 5 * i + 2)) * speed
  ⟨ox, oy, oz,
    O.sin phi * O.cos theta * spd,
    O.sin phi * O.sin theta * spd,
    O.cos phi * spd,
    time, 1.5 + rng (3 + 5 * i + 3), rng (3 + 5 * i + 4)⟩

/-- Body of the firework proximity loop: a live particle inside its
shrinking light radius contributes; a strictly larger contribution
replaces the best intensity and color seed, and every contribution adds
to the color weight. -/
def fireworkEvalStep (O : MathOps) (time decay scale pIntensity px py pz : ℚ)
    (acc : ℚ × ℚ × ℚ) (p : Particle) : ℚ × ℚ × ℚ :=
  let age := time - p.startTime
  let ageFactor := age * decay / p.life
  if ageFactor ≥ 1 then acc
  else
    let age2 := age * 2
    let particleX := p.ox + p.vx * age2
    let particleY := p.oy + p.vy * age2 - 0.5 * age * age
    let particleZ := p.oz + p.vz * age2
    let dx := px - particleX
    let dy := py - particleY
    let dz := pz - particleZ
    let distSq := dx * dx + dy * dy + dz * dz
    let radius := (1.5 - ageFactor) * scale
    let radiusSq := radius * radius
    if distSq < radiusSq then
      let dist := O.sqrt distSq
      let falloff := 1 - dist / radius
      let fadeOut := 1 - ageFactor
      let contribution := falloff * falloff * fadeOut * pIntensity
      ((if contribution > acc.1 then contribution else acc.1),
       (if contribution > acc.1 then p.colorSeed else acc.2.1),
       acc.2.2 + contribution)
    else acc

/-- `fireworkPattern` (src/patterns/generators/firework.ts): spawns a
burst of 15–25 particles on a beat (0.25s cooldown) or by auto-trigger
when amplitude stays below 0.1 for more than 1.2s; a random 10% of
calls garbage-collects particles past their life. -/
def fireworkPattern (O : MathOps) (rng : ℕ → ℚ) (position : Vec3)
    (time : ℚ) (config : PatternConfig) (audio : AudioAnalysis)
    (s : FireworkState) : EvalResult × FireworkState :=
  let decay := jsOr config.parameters.decay 0.5
  let shouldTrigger := audio.beat = true ∧ time - s.lastBeatTime > 0.25
  let autoTrigger := audio.amplitude < 0.1 ∧ time - s.lastAutoTime > 1.2
  let lastBeat1 := if shouldTrigger then time else s.lastBeatTime
  let lastAuto1 := if autoTrigger then time else s.lastAutoTime
  let particleCount := (min 25 (15 + ⌊audio.amplitude * 15⌋)).toNat
  let particles1 :=
    if shouldTrigger ∨ autoTrigger then
      let ox := (rng 0 - 0.5) * 10
      let oy := 2 + rng 1 * 6
      let oz := (rng 2 - 0.5) * 10
      (List.range particleCount).foldl
        (fun acc i => fireworkSpawnStep acc
          (mkParticle O rng ox oy oz config.parameters.speed time i))
        s.particles
    else s.particles
  let cleanupIdx := if shouldTrigger ∨ autoTrigger then 3 + 5 * particleCount else 0
  let particles2 :=
    if particles1.length > 0 ∧ rng cleanupIdx < 0.1 then
      particles1.filter (fun p => decide (time - p.startTime ≤ p.life / decay))
    else particles1
  let px := position.x
  let py := position.y
  let pz := position.z
  let best := particles2.foldl
    (fireworkEvalStep O time decay config.parameters.scale
      config.parameters.intensity px py pz) (0, 0, 0)
  (⟨min 1 best.1, if best.2.2 > 0 then best.2.1 else 0⟩,
    ⟨particles2, lastBeat1, lastAuto1⟩)

/-- The firework spawn loop from a list within the cap is append-then-
drop-from-the-front: exactly the `length + new − 200` oldest entries
are evicted. -/
lemma fireworkSpawn_fifo (news : List Particle) (l : List Particle)
    (h : l.length ≤ 200) :
    news.foldl fireworkSpawnStep l =
      (l ++ news).drop (l.length + news.length - 200) := by
  induction news generalizing l with
  | nil =>
    simp only [List.foldl_nil, List.length_nil, List.append_nil]
    rw [Nat.sub_eq_zero_of_le (by omega), List.drop_zero]
  | cons p rest ih =>
    simp only [List.foldl_cons]
    by_cases hl : l.length ≥ 200
    · have hl200 : l.length = 200 := le_antisymm h hl
      have hstep : fireworkSpawnStep l p = l.tail ++ [p] := by
        unfold fireworkSpawnStep
        rw [if_pos hl]
      rw [hstep]
      have htail : (l.tail ++ [p]).length ≤ 200 := by
        simp only [List.length_append, List.length_tail, List.length_singleton]
        omega
      rw [ih (l.tail ++ [p]) htail]
      obtain ⟨a, l', rfl⟩ : ∃ a l', l = a :: l' := by
        cases l with
        | nil => simp at hl200
        | cons a l' => exact ⟨a, l', rfl⟩
      have hl' : l'.length = 199 := by
        simp only [List.length_cons] at hl200
        omega
      simp only [List.tail_cons]
      have hlen1 : (l' ++ [p]).length + rest.length - 200 = rest.length := by
        simp only [List.length_append, List.length_singleton, List.length_cons,
          List.length_nil, hl']
        omega
      have hlen2 : (a :: l').length + (p :: rest).length - 200 = rest.length + 1 := by
        simp only [List.length_cons, hl']
        omega
      rw [hlen1, hlen2, List.cons_append, List.drop_succ_cons,
        List.append_assoc, List.singleton_append]
    · have hstep : fireworkSpawnStep l p = l ++ [p] := by
        unfold fireworkSpawnStep
        rw [if_neg hl]
      rw [hstep]
      have hlen : (l ++ [p]).length ≤ 200 := by
        simp only [List.length_append, List.length_singleton]
        omega
      rw [ih (l ++ [p]) hlen]
      have hlen3 : (l ++ [p]).length + rest.length - 200 =
          l.length + (p :: rest).length - 200 := by
        simp only [List.length_append, List.length_singleton, List.length_cons,
          List.length_nil]
        omega
      rw [hlen3, List.append_assoc, List.singleton_append]

/-- The firework spawn loop never pushes the list past the cap. -/
lemma fireworkSpawn_cap (news : List Particle) (l : List Particle)
    (h : l.length ≤ 200) :
    (news.foldl fireworkSpawnStep l).length ≤ 200 := by
  induction news generalizing l with
  | nil => exact h
  | cons p rest ih =>
    simp only [List.foldl_cons]
    apply ih
    unfold fireworkSpawnStep
    by_cases hl : l.length ≥ 200
    · rw [if_pos hl]
      simp only [List.length_append, List.length_tail, List.length_singleton]
      omega
    · rw [if_neg hl]
      simp only [List.length_append, List.length_singleton]
      omega

/-- One firework call keeps the particle list within the cap. -/
lemma fireworkPattern_cap (O : MathOps) (rng : ℕ → ℚ) (position : Vec3)
    (time : ℚ) (config : PatternConfig) (audio : AudioAnalysis)
    (s : FireworkState) (h : s.particles.length ≤ 200) :
    (fireworkPattern O rng position time config audio s).2.particles.length ≤ 200 := by
  unfold fireworkPattern
  dsimp only
  split_ifs with h1 h2 h3
  · rw [← List.foldl_map]
    exact le_trans (List.length_filter_le _ _) (fireworkSpawn_cap _ _ h)
  · rw [← List.foldl_map]
    exact fireworkSpawn_cap _ _ h
  · exact le_trans (List.length_filter_le _ _) h
  · exact h

/-- One tetris block (src/patterns/generators/extras.ts `TetrisBlock`). -/
structure TetrisBlock where
  x : ℚ
  z : ℚ
  y : ℚ
  color : ℚ
  speed : ℚ
  size : ℚ
deriving DecidableEq

/-- Module-level mutable state of the tetris generator. -/
structure TetrisState where
  blocks : List TetrisBlock
  lastTetrisBeat : ℚ
  lastTetrisAuto : ℚ
  stackHeight : ℚ
deriving DecidableEq

/-- Initial (module-load) tetris state. -/
def initTetrisState : TetrisState := ⟨[], 0, 0, 0⟩

/-- The `while (blocks.length > cap) blocks.shift()` loop: repeatedly
drops the oldest entry until the list is within the cap. -/
def shiftWhileOver {α : Type} (cap : ℕ) : List α → List α
  | [] => []
  | x :: xs => if xs.length + 1 > cap then shiftWhileOver cap xs else x :: xs

/-- Block `b` of a spawn burst, built from the five randoms of loop
iteration `b` (indices `5b … 5b+4` of the call's random stream). -/
def mkTetrisBlock (rng : ℕ → ℚ) (blockSpeed : ℚ) (b : ℕ) : TetrisBlock :=
  ⟨(rng (5 * b) - 0.5) * 16, (rng (5 * b + 1) - 0.5) * 16,
    10 + rng (5 * b + 2) * 3, rng (5 * b + 3), blockSpeed,
    1.5 + rng (5 * b + 4)⟩

/-- Per-frame position update of one block: continuous fall at ~60fps,
landing on the stack floor zeroes the speed. -/
def tetrisUpdateBlock (stack : ℚ) (b : TetrisBlock) : TetrisBlock :=
  let y1 := b.y - b.speed * 0.016
  let landingY := -3 + stack
  if y1 < landingY then ⟨b.x, b.z, landingY, b.color, 0, b.size⟩
  else ⟨b.x, b.z, y1, b.color, b.speed, b.size⟩

/-- Body of the tetris proximity loop: a point inside a block's cubic
hit area takes the block's intensity (with falloff from the centre)
when strictly larger than the running best. -/
def tetrisBlockStep (pIntensity px py pz : ℚ) (acc : ℚ × ℚ)
    (b : TetrisBlock) : ℚ × ℚ :=
  let halfSize := b.size
  let dx := |px - b.x|
  let dy := |py - b.y|
  let dz := |pz - b.z|
  if dx < halfSize ∧ dy < halfSize ∧ dz < halfSize then
    let distFactor := max (max dx dy) dz / halfSize
    let blockIntensity := pIntensity * (1 - distFactor * 0.5)
    if blockIntensity > acc.1 then (blockIntensity, b.color) else acc
  else acc

/-- `tetrisPattern` (src/patterns/generators/extras.ts): spawns 2–4
falling blocks on a beat (0.3s cooldown) or 2 by auto-trigger when
amplitude stays below 0.1 for more than 0.6s, trims the list to 40,
advances every block, accumulates the stack floor glow and occasionally
garbage-collects one stopped block. -/
def tetrisPattern (O : MathOps) (rng : ℕ → ℚ) (position : Vec3)
    (time : ℚ) (config : PatternConfig) (audio : AudioAnalysis)
    (s : TetrisState) : EvalResult × TetrisState :=
  let px := position.x
  let py := position.y
  let pz := position.z
  let shouldTrigger := audio.beat = true ∧ time - s.lastTetrisBeat > 0.3
  let autoTrigger := audio.amplitude < 0.1 ∧ time - s.lastTetrisAuto > 0.6
  let lastBeat1 := if shouldTrigger then time else s.lastTetrisBeat
  let lastAuto1 := if autoTrigger then time else s.lastTetrisAuto
  let blockCount := if shouldTrigger then (2 + ⌊audio.bass * 2⌋).toNat else 2
  let blockSpeed := if shouldTrigger then 3 + audio.bass * 4 else 2.5
  let blocks1 :=
    if shouldTrigger ∨ autoTrigger then
      shiftWhileOver 40
        (s.blocks ++ (List.range blockCount).map (mkTetrisBlock rng blockSpeed))
    else s.blocks
  let stack1 :=
    if (shouldTrigger ∨ autoTrigger) ∧ audio.bass > 0.6 then
      min 4 (s.stackHeight + 0.3)
    else s.stackHeight
  let stack2 := max 0 (stack1 - 0.005)
  let updatedBlocks := blocks1.map (tetrisUpdateBlock stack2)
  let best0 := updatedBlocks.reverse.foldl
    (tetrisBlockStep config.parameters.intensity px py pz) (0, 0)
  let best :=
    if py < -2 + stack2 then
      let stackPattern := O.sin (px * 0.3 + pz * 0.3 + time * 2) * 0.3 + 0.7
      let stackIntensity := stackPattern * config.parameters.intensity * 0.5
      if stackIntensity > best0.1 then (stackIntensity, jsRem (time * 0.15) 1)
      else best0
    else best0
  let blocks2 :=
    if updatedBlocks.length > 30 ∧
        (updatedBlocks.filter (fun b => decide (b.speed = 0))).length > 15 then
      updatedBlocks.eraseP (fun b => decide (b.speed = 0))
    else updatedBlocks
  (⟨min 1 (max 0 best.1), best.2⟩, ⟨blocks2, lastBeat1, lastAuto1, stack2⟩)

/-- The shift-while loop equals dropping the excess from the front. -/
lemma shiftWhileOver_eq_drop {α : Type} (cap : ℕ) (l : List α) :
    shiftWhileOver cap l = l.drop (l.length - cap) := by
  induction l with
  | nil => simp [shiftWhileOver]
  | cons x xs ih =>
    unfold shiftWhileOver
    by_cases h : xs.length + 1 > cap
    · rw [if_pos h, ih]
      have : (x :: xs).length - cap = (xs.length - cap) + 1 := by
        simp only [List.length_cons]
        omega
      rw [this, List.drop_succ_cons]
    · rw [if_neg h]
      have : (x :: xs).length - cap = 0 := by
        simp only [List.length_cons]
        omega
      rw [this, List.drop_zero]

/-- The shift-while loop always lands within the cap. -/
lemma shiftWhileOver_length_le {α : Type} (cap : ℕ) (l : List α) :
    (shiftWhileOver cap l).length ≤ cap := by
  rw [shiftWhileOver_eq_drop, List.length_drop]
  omega

/-- An optional first-match erase never lengthens a list. -/
lemma ifEraseP_length_le {α : Type} (P : Prop) [Decidable P] (p : α → Bool)
    (l : List α) {n : ℕ} (h : l.length ≤ n) :
    (if P then l.eraseP p else l).length ≤ n := by
  split_ifs with hP
  · exact le_trans (List.Sublist.length_le (l.eraseP_sublist)) h
  · exact h

/-- One tetris call keeps the block list within the cap. -/
lemma tetrisPattern_cap (O : MathOps) (rng : ℕ → ℚ) (position : Vec3)
    (time : ℚ) (config : PatternConfig) (audio : AudioAnalysis)
    (s : TetrisState) (h : s.blocks.length ≤ 40) :
    (tetrisPattern O rng position time config audio s).2.blocks.length ≤ 40 := by
  unfold tetrisPattern
  dsimp only
  apply ifEraseP_length_le
  rw [List.length_map]
  split_ifs
  all_goals first
    | exact shiftWhileOver_length_le 40 _
    | exact h

/-- The arguments of one stateful-generator call (the per-call random
stream included). -/
structure GenCall where
  rng : ℕ → ℚ
  position : Vec3
  time : ℚ
  config : PatternConfig
  audio : AudioAnalysis

/-- Folds a sequence of calls through the pulse generator's state. -/
def runPulse (O : MathOps) (s : PulseState) : List GenCall → PulseState
  | [] => s
  | c :: rest =>
    runPulse O (pulsePattern O c.rng c.position c.time c.config c.audio s).2 rest

/-- Folds a sequence of calls through the firework generator's state. -/
def runFirework (O : MathOps) (s : FireworkState) : List GenCall → FireworkState
  | [] => s
  | c :: rest =>
    runFirework O (fireworkPattern O c.rng c.position c.time c.config c.audio s).2 rest

/-- Folds a sequence of calls through the tetris generator's state. -/
def runTetris (O : MathOps) (s : TetrisState) : List GenCall → TetrisState
  | [] => s
  | c :: rest =>
    runTetris O (tetrisPattern O c.rng c.position c.time c.config c.audio s).2 rest

/-- The pulse spawn push from a list within the cap is append-then-drop:
when the cap is reached, exactly the oldest entry is evicted. -/
lemma pulseSpawnPush_fifo (l : List PulseEntry) (e : PulseEntry)
    (h : l.length ≤ 10) :
    pulseSpawnPush l e = (l ++ [e]).drop (l.length + 1 - 10) := by
  unfold pulseSpawnPush
  by_cases hl : l.length ≥ 10
  · rw [if_pos hl]
    have hl10 : l.length = 10 := le_antisymm h hl
    obtain ⟨a, l', rfl⟩ : ∃ a l', l = a :: l' := by
      cases l with
      | nil => simp at hl10
      | cons a l' => exact ⟨a, l', rfl⟩
    have : (a :: l').length + 1 - 10 = 1 := by
      simp only [List.length_cons] at hl10 ⊢
      omega
    rw [this, List.cons_append, List.drop_succ_cons, List.drop_zero,
      List.tail_cons]
  · rw [if_neg hl]
    have : l.length + 1 - 10 = 0 := by omega
    rw [this, List.drop_zero]

/-- Claim C3: from the initial module state, the pulse shell list never
exceeds 10 entries, the firework particle list never exceeds 200 and
the tetris block list never exceeds 40 after any sequence of calls; and
the cap-eviction of each spawn path is append-then-drop-from-the-front
(the oldest entries are evicted first). -/
theorem generator_state_caps (O : MathOps) (calls : List GenCall) :
    (runPulse O initPulseState calls).pulses.length ≤ 10 ∧
    (runFirework O initFireworkState calls).particles.length ≤ 200 ∧
    (runTetris O initTetrisState calls).blocks.length ≤ 40 ∧
    (∀ (l : List PulseEntry) (e : PulseEntry), l.length ≤ 10 →
      pulseSpawnPush l e = (l ++ [e]).drop (l.length + 1 - 10)) ∧
    (∀ (news l : List Particle), l.length ≤ 200 →
      news.foldl fireworkSpawnStep l =
        (l ++ news).drop (l.length + news.length - 200)) ∧
    (∀ (l : List TetrisBlock), shiftWhileOver 40 l = l.drop (l.length - 40)) := by
  refine ⟨?_, ?_, ?_, pulseSpawnPush_fifo, fireworkSpawn_fifo,
    fun l => shiftWhileOver_eq_drop 40 l⟩
  · have hrun : ∀ (cs : List GenCall) (s : PulseState), s.pulses.length ≤ 10 →
        (runPulse O s cs).pulses.length ≤ 10 := by
      intro cs
      induction cs with
      | nil => intro s hs; exact hs
      | cons c rest ih =>
        intro s hs
        exact ih _ (pulsePattern_cap O c.rng c.position c.time c.config c.audio s hs)
    exact hrun calls initPulseState (by simp [initPulseState])
  · have hrun : ∀ (cs : List GenCall) (s : FireworkState), s.particles.length ≤ 200 →
        (runFirework O s cs).particles.length ≤ 200 := by
      intro cs
      induction cs with
      | nil => intro s hs; exact hs
      | cons c rest ih =>
        intro s hs
        exact ih _ (fireworkPattern_cap O c.rng c.position c.time c.config c.audio s hs)
    exact hrun calls initFireworkState (by simp [initFireworkState])
  · have hrun : ∀ (cs : List GenCall) (s : TetrisState), s.blocks.length ≤ 40 →
        (runTetris O s cs).blocks.length ≤ 40 := by
      intro cs
      induction cs with
      | nil => intro s hs; exact hs
      | cons c rest ih =>
        intro s hs
        exact ih _ (tetrisPattern_cap O c.rng c.position c.time c.config c.audio s hs)
    exact hrun calls initTetrisState (by simp [initTetrisState])

/-- A concrete pulse entry. -/
def pulseEntry0 : PulseEntry := ⟨0, 0, 0, 0⟩

/-- Witness for C3 at a concrete input: the spawn-push FIFO equation at
the empty list. -/
theorem generator_state_caps_witness :
    pulseSpawnPush [] pulseEntry0 =
      (([] : List PulseEntry) ++ [pulseEntry0]).drop
        ((List.length ([] : List PulseEntry)) + 1 - 10) :=
  (generator_state_caps stubOps []).2.2.2.1 [] pulseEntry0 (by simp)

/-- Claim C10: evaluated with the fixed neutral snapshot (as the
evaluator does for `audioReactive = false` configs), none of the
state-bearing generators ever spawns: `beat = false` disables the beat
path, `amplitude = 0.5` is not below 0.1 so the auto-trigger path is
disabled, and each persistent list length never grows while the trigger
timers stay untouched. -/
theorem stateful_neutral_no_spawn (O : MathOps) (rng : ℕ → ℚ)
    (position : Vec3) (time : ℚ) (config : PatternConfig)
    (sp : PulseState) (sf : FireworkState) (st : TetrisState) :
    neutralAudio.beat = false ∧ ¬ neutralAudio.amplitude < 0.1 ∧
    ((pulsePattern O rng position time config neutralAudio sp).2.pulses.length ≤
        sp.pulses.length ∧
      (pulsePattern O rng position time config neutralAudio sp).2.lastBeatTime =
        sp.lastBeatTime ∧
      (pulsePattern O rng position time config neutralAudio sp).2.lastAutoTime =
        sp.lastAutoTime) ∧
    ((fireworkPattern O rng position time config neutralAudio sf).2.particles.length ≤
        sf.particles.length ∧
      (fireworkPattern O rng position time config neutralAudio sf).2.lastBeatTime =
        sf.lastBeatTime ∧
      (fireworkPattern O rng position time config neutralAudio sf).2.lastAutoTime =
        sf.lastAutoTime) ∧
    ((tetrisPattern O rng position time config neutralAudio st).2.blocks.length ≤
        st.blocks.length ∧
      (tetrisPattern O rng position time config neutralAudio st).2.lastTetrisBeat =
        st.lastTetrisBeat ∧
      (tetrisPattern O rng position time config neutralAudio st).2.lastTetrisAuto =
        st.lastTetrisAuto) := by
  have hbeat : neutralAudio.beat = false := rfl
  have hamp : ¬ neutralAudio.amplitude < 0.1 := by norm_num [neutralAudio]
  have hno : ∀ t : ℚ, ¬ (neutralAudio.beat = true ∧ t > 0) := by
    intro t h
    rw [hbeat] at h
    exact Bool.false_ne_true h.1
  refine ⟨hbeat, hamp, ?_, ?_, ?_⟩
  · have hA : ¬ (neutralAudio.beat = true ∧ time - sp.lastBeatTime > 0.25) :=
      fun h => Bool.false_ne_true (hbeat ▸ h.1)
    have hB : ¬ (neutralAudio.amplitude < 0.1 ∧ time - sp.lastAutoTime > 1.0) :=
      fun h => hamp h.1
    have hor : ¬ ((neutralAudio.beat = true ∧ time - sp.lastBeatTime > 0.25) ∨
        (neutralAudio.amplitude < 0.1 ∧ time - sp.lastAutoTime > 1.0)) := by
      rintro (h | h)
      exacts [hA h, hB h]
    unfold pulsePattern
    dsimp only
    rw [if_neg hor, if_neg hA, if_neg hB]
    exact ⟨List.length_filter_le _ _, rfl, rfl⟩
  · have hA : ¬ (neutralAudio.beat = true ∧ time - sf.lastBeatTime > 0.25) :=
      fun h => Bool.false_ne_true (hbeat ▸ h.1)
    have hB : ¬ (neutralAudio.amplitude < 0.1 ∧ time - sf.lastAutoTime > 1.2) :=
      fun h => hamp h.1
    have hor : ¬ ((neutralAudio.beat = true ∧ time - sf.lastBeatTime > 0.25) ∨
        (neutralAudio.amplitude < 0.1 ∧ time - sf.lastAutoTime > 1.2)) := by
      rintro (h | h)
      exacts [hA h, hB h]
    unfold fireworkPattern
    dsimp only
    rw [if_neg hor, if_neg hor, if_neg hA, if_neg hB]
    refine ⟨?_, rfl, rfl⟩
    split_ifs with hclean
    · exact List.length_filter_le _ _
    · exact le_refl _
  · have hA : ¬ (neutralAudio.beat = true ∧ time - st.lastTetrisBeat > 0.3) :=
      fun h => Bool.false_ne_true (hbeat ▸ h.1)
    have hB : ¬ (neutralAudio.amplitude < 0.1 ∧ time - st.lastTetrisAuto > 0.6) :=
      fun h => hamp h.1
    have hor : ¬ ((neutralAudio.beat = true ∧ time - st.lastTetrisBeat > 0.3) ∨
        (neutralAudio.amplitude < 0.1 ∧ time - st.lastTetrisAuto > 0.6)) := by
      rintro (h | h)
      exacts [hA h, hB h]
    unfold tetrisPattern
    dsimp only
    rw [if_neg hor, if_neg hA, if_neg hB]
    refine ⟨?_, rfl, rfl⟩
    exact ifEraseP_length_le _ _ _ (by rw [List.length_map])

/-- Membership in a drop that only consumes the front part. -/
lemma mem_drop_append {α : Type} (l news : List α) (k : ℕ)
    (hk : k ≤ l.length) (p : α) (hp : p ∈ news) : p ∈ (l ++ news).drop k := by
  rw [List.drop_append_of_le_length hk]
  exact List.mem_append_right _ hp

/-- Erasing the first match of `q` does not change the count of a
predicate disjoint from `q`. -/
lemma countP_eraseP_of_imp {α : Type} (p q : α → Bool)
    (h : ∀ a, q a = true → p a = false) (l : List α) :
    (l.eraseP q).countP p = l.countP p := by
  induction l with
  | nil => rfl
  | cons x xs ih =>
    rw [List.eraseP_cons]
    cases hq : q x with
    | true =>
      simp only [cond_true, List.countP_cons, h x hq]
      simp
    | false =>
      simp only [cond_false, List.countP_cons, ih]

/-- A list ending in two entries satisfying `p` has at least two
`p`-entries. -/
lemma filter_append_pair_ge_two {α : Type} (p : α → Bool) (A : List α)
    (b0 b1 : α) (h0 : p b0 = true) (h1 : p b1 = true) :
    2 ≤ ((A ++ [b0, b1]).filter p).length := by
  rw [List.filter_append, List.length_append]
  have : (List.filter p [b0, b1]).length = 2 := by
    simp [List.filter, h0, h1]
  omega

/-- The optional garbage-collection of one stopped block cannot lower
the count of a disjoint predicate. -/
lemma filter_ifEraseP_ge {α : Type} (P : Prop) [Decidable P]
    (p q : α → Bool) (h : ∀ a, q a = true → p a = false) (l : List α)
    (n : ℕ) (hn : n ≤ (l.filter p).length) :
    n ≤ ((if P then l.eraseP q else l).filter p).length := by
  split_ifs with hP
  · rw [← List.countP_eq_length_filter] at hn ⊢
    rw [countP_eraseP_of_imp p q h l]
    exact hn
  · exact hn

/-- Claim C6: with amplitude held below 0.1 and no beat, a call made
more than the generator's idle window after the last auto-trigger
(1.0s pulse, 1.2s firework, 0.6s tetris) spawns a new feature — a shell
stamped with the call time, a particle burst stamped with the call time,
or two falling (nonzero-speed) blocks — and stamps the auto-trigger
timer with the call time. -/
theorem auto_trigger_fallback (O : MathOps) (rng : ℕ → ℚ) (position : Vec3)
    (time : ℚ) (config : PatternConfig) (audio : AudioAnalysis)
    (sp : PulseState) (sf : FireworkState) (st : TetrisState)
    (hbeat : audio.beat = false)
    (hamp0 : 0 ≤ audio.amplitude) (hamp : audio.amplitude < 0.1)
    (hrng : ∀ n, 0 ≤ rng n)
    (hdecay : 0 < jsOr config.parameters.decay 0.5) :
    (time - sp.lastAutoTime > 1.0 →
      (∃ e ∈ (pulsePattern O rng position time config audio sp).2.pulses,
        e.t = time) ∧
      (pulsePattern O rng position time config audio sp).2.lastAutoTime = time) ∧
    (time - sf.lastAutoTime > 1.2 → sf.particles.length ≤ 200 →
      (∃ q ∈ (fireworkPattern O rng position time config audio sf).2.particles,
        q.startTime = time) ∧
      (fireworkPattern O rng position time config audio sf).2.lastAutoTime = time) ∧
    (time - st.lastTetrisAuto > 0.6 → st.blocks.length ≤ 40 →
        st.stackHeight ≤ 4 →
      2 ≤ ((tetrisPattern O rng position time config audio st).2.blocks.filter
        (fun b => decide (¬ b.speed = 0))).length ∧
      (tetrisPattern O rng position time config audio st).2.lastTetrisAuto = time) := by
  have hbeatfalse : ∀ t : ℚ, ¬ (audio.beat = true ∧ t > (0.25:ℚ)) ∧
      ¬ (audio.beat = true ∧ t > (0.3:ℚ)) := by
    intro t
    constructor <;> exact fun h => by rw [hbeat] at h; exact Bool.false_ne_true h.1
  refine ⟨?_, ?_, ?_⟩
  · -- pulse
    intro hidle
    have hA : ¬ (audio.beat = true ∧ time - sp.lastBeatTime > 0.25) :=
      (hbeatfalse _).1
    have hB : audio.amplitude < 0.1 ∧ time - sp.lastAutoTime > 1.0 := ⟨hamp, hidle⟩
    have hor : (audio.beat = true ∧ time - sp.lastBeatTime > 0.25) ∨
        (audio.amplitude < 0.1 ∧ time - sp.lastAutoTime > 1.0) := Or.inr hB
    unfold pulsePattern
    dsimp only
    rw [if_pos hor, if_pos hB]
    refine ⟨⟨⟨time, config.parameters.origin.x + (rng 0 - 0.5) * 4,
      config.parameters.origin.y + (rng 1 - 0.5) * 4,
      config.parameters.origin.z + (rng 2 - 0.5) * 4⟩, ?_, rfl⟩, rfl⟩
    rw [List.mem_filter]
    constructor
    · exact List.mem_append_right _ (List.mem_singleton_self _)
    · rw [decide_eq_true_eq]
      dsimp only
      rw [sub_self]
      exact div_nonneg (by norm_num) (le_of_lt hdecay)
  · -- firework
    intro hidle hcap
    have hB : audio.amplitude < 0.1 ∧ time - sf.lastAutoTime > 1.2 := ⟨hamp, hidle⟩
    have hor : (audio.beat = true ∧ time - sf.lastBeatTime > 0.25) ∨
        (audio.amplitude < 0.1 ∧ time - sf.lastAutoTime > 1.2) := Or.inr hB
    have hcount_pos : 0 < (min 25 (15 + ⌊audio.amplitude * 15⌋)).toNat := by
      have hf : 0 ≤ ⌊audio.amplitude * 15⌋ :=
        Int.floor_nonneg.mpr (mul_nonneg hamp0 (by norm_num))
      have : (15:ℤ) ≤ min 25 (15 + ⌊audio.amplitude * 15⌋) := by
        apply le_min (by norm_num)
        omega
      omega
    have hcount_le : (min 25 (15 + ⌊audio.amplitude * 15⌋)).toNat ≤ 25 := by
      have : min 25 (15 + ⌊audio.amplitude * 15⌋) ≤ 25 := min_le_left _ _
      omega
    unfold fireworkPattern
    dsimp only
    rw [if_pos hor, if_pos hor, if_pos hB]
    set count := (min 25 (15 + ⌊audio.amplitude * 15⌋)).toNat with hcountdef
    set mk := fun i => mkParticle O rng ((rng 0 - 0.5) * 10) (2 + rng 1 * 6)
      ((rng 2 - 0.5) * 10) config.parameters.speed time i with hmkdef
    have hfold : (List.range count).foldl
        (fun acc i => fireworkSpawnStep acc (mk i)) sf.particles =
        (sf.particles ++ (List.range count).map mk).drop
          (sf.particles.length + ((List.range count).map mk).length - 200) := by
      rw [← List.foldl_map]
      exact fireworkSpawn_fifo _ _ hcap
    have hmem1 : mk 0 ∈ (List.range count).foldl
        (fun acc i => fireworkSpawnStep acc (mk i)) sf.particles := by
      rw [hfold]
      apply mem_drop_append
      · rw [List.length_map, List.length_range]
        omega
      · exact List.mem_map_of_mem mk (List.mem_range.mpr hcount_pos)
    have hkeep : (fun q : Particle =>
        decide (time - q.startTime ≤ q.life / jsOr config.parameters.decay 0.5))
          (mk 0) = true := by
      rw [decide_eq_true_eq, hmkdef]
      unfold mkParticle
      dsimp only
      rw [sub_self]
      apply div_nonneg _ (le_of_lt hdecay)
      have := hrng (3 + 5 * 0 + 3)
      linarith
    refine ⟨⟨mk 0, ?_, by rw [hmkdef]; rfl⟩, rfl⟩
    split_ifs with hclean
    · rw [List.mem_filter]
      exact ⟨hmem1, hkeep⟩
    · exact hmem1
  · -- tetris
    intro hidle hcap hstk
    have hA : ¬ (audio.beat = true ∧ time - st.lastTetrisBeat > 0.3) :=
      (hbeatfalse _).2
    have hB : audio.amplitude < 0.1 ∧ time - st.lastTetrisAuto > 0.6 := ⟨hamp, hidle⟩
    have hor : (audio.beat = true ∧ time - st.lastTetrisBeat > 0.3) ∨
        (audio.amplitude < 0.1 ∧ time - st.lastTetrisAuto > 0.6) := Or.inr hB
    unfold tetrisPattern
    dsimp only
    rw [if_pos hor, if_neg hA, if_neg hA, if_pos hB]
    set stack1 := if ((audio.beat = true ∧ time - st.lastTetrisBeat > 0.3) ∨
        (audio.amplitude < 0.1 ∧ time - st.lastTetrisAuto > 0.6)) ∧
        audio.bass > 0.6 then min 4 (st.stackHeight + 0.3) else st.stackHeight
      with hstack1def
    have hstack1 : stack1 ≤ 4 := by
      rw [hstack1def]
      split_ifs
      · exact min_le_left _ _
      · exact hstk
    have hstack2 : max 0 (stack1 - 0.005) ≤ 4 := by
      apply max_le (by norm_num)
      linarith
    have hnews : (List.range 2).map (mkTetrisBlock rng 2.5) =
        [mkTetrisBlock rng 2.5 0, mkTetrisBlock rng 2.5 1] := rfl
    have hupd : ∀ b : ℕ, (tetrisUpdateBlock (max 0 (stack1 - 0.005))
        (mkTetrisBlock rng 2.5 b)).speed = 2.5 := by
      intro b
      unfold tetrisUpdateBlock mkTetrisBlock
      dsimp only
      rw [if_neg]
      have := hrng (5 * b + 2)
      intro hlt
      have hland : -3 + max 0 (stack1 - 0.005) ≤ 1 := by linarith
      nlinarith [hrng (5 * b + 2)]
    have hp : ∀ b : ℕ, (fun b : TetrisBlock => decide (¬ b.speed = 0))
        (tetrisUpdateBlock (max 0 (stack1 - 0.005)) (mkTetrisBlock rng 2.5 b)) = true := by
      intro b
      rw [decide_eq_true_eq, hupd b]
      norm_num
    refine ⟨?_, rfl⟩
    apply filter_ifEraseP_ge
    · intro a ha
      rw [decide_eq_true_eq] at ha
      simp [ha]
    · have hmap2 : List.map (tetrisUpdateBlock (max 0 (stack1 - 0.005)))
          [mkTetrisBlock rng 2.5 0, mkTetrisBlock rng 2.5 1] =
          [tetrisUpdateBlock (max 0 (stack1 - 0.005)) (mkTetrisBlock rng 2.5 0),
           tetrisUpdateBlock (max 0 (stack1 - 0.005)) (mkTetrisBlock rng 2.5 1)] := rfl
      have hk : (st.blocks ++ [mkTetrisBlock rng 2.5 0, mkTetrisBlock rng 2.5 1]).length
          - 40 ≤ st.blocks.length := by
        rw [List.length_append]
        simp only [List.length_cons, List.length_nil]
        omega
      rw [hnews, shiftWhileOver_eq_drop, List.drop_append_of_le_length hk,
        List.map_append, hmap2]
      exact filter_append_pair_ge_two _ _ _ _ (hp 0) (hp 1)

/-- Witness for C6 at a concrete input: silence at time 2s from the
initial pulse state spawns a shell stamped 2. -/
theorem auto_trigger_fallback_witness :
    (∃ e ∈ (pulsePattern stubOps (fun _ => 0) ⟨0, 0, 0⟩ 2 cfgReactive
        silentAudio initPulseState).2.pulses, e.t = 2) ∧
      (pulsePattern stubOps (fun _ => 0) ⟨0, 0, 0⟩ 2 cfgReactive
        silentAudio initPulseState).2.lastAutoTime = 2 :=
  (auto_trigger_fallback stubOps (fun _ => 0) ⟨0, 0, 0⟩ 2 cfgReactive
    silentAudio initPulseState initFireworkState initTetrisState rfl
    (le_refl 0) (by norm_num [silentAudio]) (fun _ => le_refl 0)
    (by norm_num [cfgReactive, jsOr])).1 (by norm_num [initPulseState])

/-- Per-point output of the per-frame smoothing stage: the two stored
scalars and the displayed intensity. -/
structure SmoothResult where
  smoothIntensity : ℚ
  smoothColor : ℚ
  finalIntensity : ℚ
deriving DecidableEq

/-- The snapshot actually fed to the evaluator by the preview frame
loop (src/components/Preview/MiniViewer.tsx `LightGrid`): the live
analysis when audio is loaded (`timestamp > 0`), a zero snapshot
otherwise. -/
def lightGridAudioData (analysis : AudioAnalysis) : AudioAnalysis :=
  if analysis.timestamp > 0 then analysis else ⟨0, 0, 0, 0, false, 0, [], 0⟩

/-- The global brightness factor of the preview frame loop:
`0.4 + 0.6·min(1, amplitude)` when audio is loaded, full brightness 1.0
otherwise. -/
def lightGridGlobalIntensity (analysis : AudioAnalysis) : ℚ :=
  if analysis.timestamp > 0 then
    0.4 + (min 1 (lightGridAudioData analysis).amplitude) * 0.6
  else 1.0

/-- The evaluator target intensity of one point, scaled by the global
brightness factor; 0 when no pattern is enabled. -/
def lightGridTargetIntensity (table : PatternType → PatternFn)
    (patterns : List PatternConfig) (analysis : AudioAnalysis)
    (position : Vec3) (time : ℚ) : ℚ :=
  let enabledPatterns := patterns.filter (fun p => p.enabled)
  if enabledPatterns.length > 0 then
    (evaluatePatterns table position time enabledPatterns
      (lightGridAudioData analysis)).intensity * lightGridGlobalIntensity analysis
  else 0

/-- The evaluator target colorShift of one point; 0 when no pattern is
enabled. -/
def lightGridTargetColorShift (table : PatternType → PatternFn)
    (patterns : List PatternConfig) (analysis : AudioAnalysis)
    (position : Vec3) (time : ℚ) : ℚ :=
  let enabledPatterns := patterns.filter (fun p => p.enabled)
  if enabledPatterns.length > 0 then
    (evaluatePatterns table position time enabledPatterns
      (lightGridAudioData analysis)).colorShift
  else 0

/-- One point of one frame of the smoothing stage
(src/components/Preview/MiniViewer.tsx `LightGrid` `useFrame` body):
asymmetric lerp of the intensity (0.12 rising, 0.04 falling), fixed
0.08 lerp of the colorShift, gamma `^0.8` and the 0.02 display
threshold. -/
def lightGridPointStep (O : MathOps) (table : PatternType → PatternFn)
    (patterns : List PatternConfig) (analysis : AudioAnalysis)
    (position : Vec3) (time prevI prevC : ℚ) : SmoothResult :=
  let targetIntensity := lightGridTargetIntensity table patterns analysis position time
  let targetColorShift := lightGridTargetColorShift table patterns analysis position time
  let lerpUp := (0.12 : ℚ)
  let lerpDown := (0.04 : ℚ)
  let lerpFactor := if targetIntensity > prevI then lerpUp else lerpDown
  let smoothIntensity := prevI + (targetIntensity - prevI) * lerpFactor
  let smoothColor := prevC + (targetColorShift - prevC) * 0.08
  let ledIntensity := O.pow smoothIntensity 0.8
  let finalIntensity := if ledIntensity > 0.02 then ledIntensity else 0
  ⟨smoothIntensity, smoothColor, finalIntensity⟩

/-- Claim C8 (amended): per point per frame, the stored intensity blends
toward the global-brightness-scaled target with lerp factor 0.12 when
rising and 0.04 otherwise; the stored colorShift blends toward the
target colorShift with the fixed factor 0.08 (not the asymmetric rate);
the displayed intensity is the gamma value `smoothIntensity^0.8` when
above the 0.02 threshold and 0 otherwise; and the global brightness
factor is `0.4 + 0.6·amplitude` when audio is loaded (amplitude ≤ 1)
and 1.0 when no audio is loaded. -/
theorem lightGrid_smoothing_spec (O : MathOps) (table : PatternType → PatternFn)
    (patterns : List PatternConfig) (analysis : AudioAnalysis)
    (position : Vec3) (time prevI prevC : ℚ) :
    (lightGridTargetIntensity table patterns analysis position time > prevI →
      (lightGridPointStep O table patterns analysis position time prevI prevC).smoothIntensity =
        prevI + (lightGridTargetIntensity table patterns analysis position time - prevI) * 0.12) ∧
    (¬ lightGridTargetIntensity table patterns analysis position time > prevI →
      (lightGridPointStep O table patterns analysis position time prevI prevC).smoothIntensity =
        prevI + (lightGridTargetIntensity table patterns analysis position time - prevI) * 0.04) ∧
    ((lightGridPointStep O table patterns analysis position time prevI prevC).smoothColor =
      prevC + (lightGridTargetColorShift table patterns analysis position time - prevC) * 0.08) ∧
    (O.pow (lightGridPointStep O table patterns analysis position time prevI prevC).smoothIntensity 0.8 > 0.02 →
      (lightGridPointStep O table patterns analysis position time prevI prevC).finalIntensity =
        O.pow (lightGridPointStep O table patterns analysis position time prevI prevC).smoothIntensity 0.8) ∧
    (¬ O.pow (lightGridPointStep O table patterns analysis position time prevI prevC).smoothIntensity 0.8 > 0.02 →
      (lightGridPointStep O table patterns analysis position time prevI prevC).finalIntensity = 0) ∧
    (analysis.timestamp > 0 → analysis.amplitude ≤ 1 →
      lightGridGlobalIntensity analysis = 0.4 + 0.6 * analysis.amplitude) ∧
    (¬ analysis.timestamp > 0 → lightGridGlobalIntensity analysis = 1) := by
  refine ⟨?_, ?_, ?_, ?_, ?_, ?_, ?_⟩
  · intro h
    unfold lightGridPointStep
    dsimp only
    rw [if_pos h]
  · intro h
    unfold lightGridPointStep
    dsimp only
    rw [if_neg h]
  · rfl
  · intro h
    unfold lightGridPointStep at h ⊢
    dsimp only at h ⊢
    rw [if_pos h]
  · intro h
    unfold lightGridPointStep at h ⊢
    dsimp only at h ⊢
    rw [if_neg h]
  · intro ht hamp
    unfold lightGridGlobalIntensity lightGridAudioData
    rw [if_pos ht, if_pos ht, min_eq_right hamp]
    ring
  · intro ht
    unfold lightGridGlobalIntensity
    rw [if_neg ht]
    norm_num

/-- Constant generator table returning full intensity and colorShift 1. -/
def tableOnes : PatternType → PatternFn :=
  fun _ => fun _ _ _ _ => ⟨1, 1⟩

/-- Counterexample for C8 as stated: with previous colorShift 0 and
target colorShift 1 (a rising edge), the stored colorShift becomes
0.08, not the 0.12 an asymmetric rising lerp would give — the source
blends color with a fixed 0.08 factor. -/
theorem lightGrid_colorShift_lerp_counterexample :
    (lightGridPointStep stubOps tableOnes [cfgReactive] loudAudio
      ⟨0, 0, 0⟩ 0 0 0).smoothColor = 8 / 100 ∧
    (8 / 100 : ℚ) ≠ 0 + (1 - 0) * (12 / 100) := by
  constructor
  · have htgt : lightGridTargetColorShift tableOnes [cfgReactive] loudAudio
        ⟨0, 0, 0⟩ 0 = 1 := by
      unfold lightGridTargetColorShift lightGridAudioData
      dsimp only
      have hfilter : ([cfgReactive].filter (fun p => p.enabled)) = [cfgReactive] := rfl
      rw [hfilter]
      rw [if_pos (by simp : ([cfgReactive] : List PatternConfig).length > 0)]
      rw [if_pos (by norm_num [loudAudio] : loudAudio.timestamp > 0)]
      unfold evaluatePatterns evalStep tableOnes
      norm_num
    unfold lightGridPointStep
    dsimp only
    rw [htgt]
    norm_num
  · norm_num

/-- Witness for the amended C8 at a concrete input. -/
theorem lightGrid_smoothing_spec_witness :
    lightGridGlobalIntensity loudAudio = 0.4 + 0.6 * loudAudio.amplitude :=
  (lightGrid_smoothing_spec stubOps tableOnes [cfgReactive] loudAudio
    ⟨0, 0, 0⟩ 0 0 0).2.2.2.2.2.1 (by norm_num [loudAudio]) (by norm_num [loudAudio])
